import Mathlib

/-!
Verification development for the maintenance command dispatcher of the
rpc-go repository (internal/flags/info.go).

The Go code is shallowly embedded: strings are Lean String values, byte
slices are lists of Nat values below 256, fallible external calls are
fields of an explicit environment record, and the mutable Flags receiver
is threaded as an explicit state record.  Observable side effects
(usage printing, password prompting, queries of the management engine
and of the OS network enumerator) are recorded in a Trace record.

The parts of the Go standard library that the handlers call
(net.ParseIP, net.IP.To4, net.IP.IsLoopback, net.IP.String,
flag.FlagSet.Parse, strconv quoting inside the fmt %q verb,
and the regexp dash-to-colon search) are modelled faithfully from their
Go sources, with two documented restrictions noted at the definitions:
printable-rune classification during quoting is restricted to ASCII, and
IPv6 zone suffixes are rejected as in Go 1.17 and later, which also
reject leading zeros in dotted-quad components.
-/

namespace RpcGo

/-- Return codes of the rpc utils package. The Go code uses small
positive integers with Success equal to zero; only their identity
matters here, so they are modelled as an inductive type. -/
inductive ReturnCode where
  | Success
  | IncorrectCommandLineParameters
  | MissingOrIncorrectPassword
  | MissingOrIncorrectURL
  | MissingOrIncorrectNetworkMask
  | MissingOrIncorrectStaticIP
  | MissingOrIncorrectGateway
  | MissingOrIncorrectPrimaryDNS
  | MissingOrIncorrectSecondaryDNS
  | OSNetworkInterfacesLookupFailed
  | AMTConnectionFailed
deriving DecidableEq, Repr

/-- Hex digit table of the Go net and strconv packages
(const hexDigit = the sixteen lowercase hex digit characters). -/
def hexDigitChar (n : Nat) : Char :=
  match n with
  | 0 => '0' | 1 => '1' | 2 => '2' | 3 => '3' | 4 => '4'
  | 5 => '5' | 6 => '6' | 7 => '7' | 8 => '8' | 9 => '9'
  | 10 => 'a' | 11 => 'b' | 12 => 'c' | 13 => 'd' | 14 => 'e' | 15 => 'f'
  | _ => '0'

/-- Core of the Go net package uitoa: most significant digit first,
no leading zeros.  The first argument is recursion fuel; the initial
value itself is always sufficient fuel because the value shrinks by a
factor of ten at each step. -/
def uitoaCore : Nat → Nat → List Char
  | 0, v => [Nat.digitChar (v % 10)]
  | fuel+1, v =>
    if v < 10 then [Nat.digitChar v]
    else uitoaCore fuel (v / 10) ++ [Nat.digitChar (v % 10)]

/-- Decimal rendering of an unsigned integer, as the Go net package
helper uitoa produces it. -/
def uitoa (n : Nat) : String := String.mk (uitoaCore n n)

/-- Core of the Go net package appendHex: lowercase hex digits, most
significant first, no leading zeros.  Fuel-based like uitoaCore. -/
def hexCore : Nat → Nat → List Char
  | 0, v => [hexDigitChar (v % 16)]
  | fuel+1, v =>
    if v < 16 then [hexDigitChar v]
    else hexCore fuel (v / 16) ++ [hexDigitChar (v % 16)]

/-- Hex rendering of an unsigned integer without leading zeros, as the
Go net package appendHex produces for one 16-bit group. -/
def hexUtoa (n : Nat) : String := if n = 0 then "0" else String.mk (hexCore n n)

/-- Overflow bound of the Go net package parsing helpers
(const big = 0xFFFFFF). -/
def bigBound : Nat := 0xFFFFFF

/-- Decimal-prefix scanner dtoi of the Go net package: consumes leading
decimal digits, returning the value, the number of characters consumed,
and an ok flag that is false when no digit was consumed or the value
reached the overflow bound. -/
def dtoiAux : List Char → Nat → Nat → Nat × Nat × Bool
  | [], n, i => if i = 0 then (0, 0, false) else (n, i, true)
  | c :: s, n, i =>
    if c.isDigit then
      let n2 := n * 10 + (c.toNat - 48)
      if n2 ≥ bigBound then (bigBound, i, false) else dtoiAux s n2 (i + 1)
    else if i = 0 then (0, 0, false) else (n, i, true)

/-- Hex-prefix scanner xtoi of the Go net package. -/
def xtoiAux : List Char → Nat → Nat → Nat × Nat × Bool
  | [], n, i => if i = 0 then (0, i, false) else (n, i, true)
  | c :: s, n, i =>
    let d : Option Nat :=
      if '0' ≤ c ∧ c ≤ '9' then some (c.toNat - 48)
      else if 'a' ≤ c ∧ c ≤ 'f' then some (c.toNat - 97 + 10)
      else if 'A' ≤ c ∧ c ≤ 'F' then some (c.toNat - 65 + 10)
      else none
    match d with
    | none => if i = 0 then (0, i, false) else (n, i, true)
    | some dv =>
      let n2 := n * 16 + dv
      if n2 ≥ bigBound then (0, i, false) else xtoiAux s n2 (i + 1)

/-- Single dotted-quad field of Go parseIPv4: a decimal run of value at
most 255, with the Go 1.17 rejection of leading zeros.  Returns the
value and the unconsumed remainder. -/
def readField (s : List Char) : Option (Nat × List Char) :=
  match dtoiAux s 0 0 with
  | (n, c, ok) =>
    if !ok then none
    else if n > 255 then none
    else if c > 1 ∧ s.head? = some '0' then none
    else some (n, s.drop c)

/-- Dotted-quad parser, modelling Go parseIPv4: four fields separated by
dots, the whole input consumed. -/
def parseV4Go (s : List Char) : Option (List Nat) :=
  match readField s with
  | none => none
  | some (a, s1) =>
    match s1 with
    | '.' :: s2 =>
      match readField s2 with
      | none => none
      | some (b, s3) =>
        match s3 with
        | '.' :: s4 =>
          match readField s4 with
          | none => none
          | some (c, s5) =>
            match s5 with
            | '.' :: s6 =>
              match readField s6 with
              | none => none
              | some (d, s7) => if s7 = [] then some [a, b, c, d] else none
            | _ => none
        | _ => none
    | _ => none

/-- Write one byte of an IP buffer (Go assigns into a fixed 16-byte
array; out-of-range indices never occur on the reachable paths). -/
def listSet (l : List Nat) (idx v : Nat) : List Nat := l.set idx v

/-- End phase of Go parseIPv6: the whole input must be consumed; a short
parse expands the ellipsis by shifting the written bytes to the end and
zero-filling the gap; a full parse must not also carry an ellipsis. -/
def v6Finish (s : List Char) (i : Nat) (ellipsis : Option Nat) (ip : List Nat) :
    Option (List Nat) :=
  if s ≠ [] then none
  else if i < 16 then
    match ellipsis with
    | none => none
    | some e => some (ip.take e ++ List.replicate (16 - i) 0 ++ (ip.drop e).take (i - e))
  else
    match ellipsis with
    | some _ => none
    | none => some ip

/-- Main loop of Go parseIPv6: 16-bit hex groups separated by colons,
at most one double-colon ellipsis, optionally ending in a dotted quad in
the last four bytes.  Fuel-based; the write index grows by at least two
per iteration, so fuel 17 never runs out. -/
def parseIPv6Loop : Nat → List Char → Nat → Option Nat → List Nat → Option (List Nat)
  | 0, _, _, _, _ => none
  | fuel+1, s, i, ellipsis, ip =>
    if i < 16 then
      match xtoiAux s 0 0 with
      | (n, c, ok) =>
        if !ok ∨ n > 0xFFFF then none
        else if c < s.length ∧ (s.drop c).head? = some '.' then
          if ellipsis = none ∧ i ≠ 12 then none
          else if i + 4 > 16 then none
          else
            match parseV4Go s with
            | none => none
            | some ds =>
              match ds with
              | [a, b, cc, d] =>
                let ip2 := listSet (listSet (listSet (listSet ip i a) (i+1) b) (i+2) cc) (i+3) d
                v6Finish [] (i + 4) ellipsis ip2
              | _ => none
        else
          let ip1 := listSet (listSet ip i (n / 256)) (i + 1) (n % 256)
          match s.drop c with
          | [] => v6Finish [] (i + 2) ellipsis ip1
          | c1 :: s2 =>
            if c1 ≠ ':' ∨ s2 = [] then none
            else
              match s2 with
              | ':' :: s3 =>
                if ellipsis.isSome then none
                else if s3 = [] then v6Finish [] (i + 2) (some (i + 2)) ip1
                else parseIPv6Loop fuel s3 (i + 2) (some (i + 2)) ip1
              | _ => parseIPv6Loop fuel s2 (i + 2) ellipsis ip1
    else v6Finish s i ellipsis ip

/-- Colon-notation parser, modelling Go parseIPv6 for zone-free input;
a zone suffix makes the parse fail, as in Go 1.18 and later. -/
def parseIPv6Go (s : List Char) : Option (List Nat) :=
  let zero16 := List.replicate 16 0
  match s with
  | ':' :: ':' :: rest =>
    if rest = [] then some zero16
    else parseIPv6Loop 17 rest 0 (some 0) zero16
  | _ => parseIPv6Loop 17 s 0 none zero16

/-- First structural hint of Go net.ParseIP: scan for the first dot or
colon; some true means a dot came first, some false a colon. -/
def scanIPKind : List Char → Option Bool
  | [] => none
  | c :: r => if c = '.' then some true else if c = ':' then some false else scanIPKind r

/-- Sixteen-byte IPv4-in-IPv6 representation, as the Go net.IPv4
constructor produces. -/
def v4InV6 (a b c d : Nat) : List Nat :=
  [0, 0, 0, 0, 0, 0, 0, 0, 0, 0, 0xff, 0xff, a, b, c, d]

/-- Model of Go net.ParseIP: nil is modelled as none.  Accepts both
dotted-quad IPv4 and colon-notation IPv6 text. -/
def parseIPModel (s : String) : Option (List Nat) :=
  match scanIPKind s.data with
  | some true =>
    match parseV4Go s.data with
    | some l =>
      match l with
      | [a, b, c, d] => some (v4InV6 a b c d)
      | _ => none
    | none => none
  | some false => parseIPv6Go s.data
  | none => none

/-- Model of Go net.IP.To4: a 4-byte value is returned unchanged, a
16-byte IPv4-in-IPv6 value is narrowed to its last four bytes. -/
def to4 (ip : List Nat) : Option (List Nat) :=
  if ip.length = 4 then some ip
  else if ip.length = 16 ∧ ip.take 10 = List.replicate 10 0 ∧
      ip.getD 10 0 = 0xff ∧ ip.getD 11 0 = 0xff then some (ip.drop 12)
  else none

/-- Model of Go net.IP.IsLoopback: first byte 127 for IPv4-like values,
otherwise equality with the 16-byte IPv6 loopback address. -/
def isLoopback (ip : List Nat) : Bool :=
  match to4 ip with
  | some l4 => l4.headD 0 = 127
  | none => ip = List.replicate 15 0 ++ [1]

/-- Dotted-quad rendering used by Go net.IP.String for IPv4-like
values. -/
def dottedQuad (a b c d : Nat) : String :=
  uitoa a ++ "." ++ uitoa b ++ "." ++ uitoa c ++ "." ++ uitoa d

/-- Two fixed hex digits for one byte, as in the Go net package
hexString helper. -/
def hexByte2 (b : Nat) : String :=
  String.mk [hexDigitChar (b / 16 % 16), hexDigitChar (b % 16)]

/-- Hex dump of a byte list, as the Go net package hexString helper
produces for invalid-length IP values. -/
def hexStringOf (ip : List Nat) : String := String.join (ip.map hexByte2)

/-- One 16-bit group of a 16-byte IP value, at the given byte index. -/
def v6GroupAt (ip : List Nat) (i : Nat) : Nat :=
  ip.getD i 0 * 256 + ip.getD (i + 1) 0

/-- End byte index of the run of zero groups starting at byte index j,
matching the inner loop of Go net.IP.String. -/
def zeroRunEnd (ip : List Nat) : Nat → Nat → Nat
  | 0, j => j
  | fuel+1, j => if j < 16 ∧ v6GroupAt ip j = 0 then zeroRunEnd ip fuel (j + 2) else j

/-- Scan for the leftmost longest run of zero groups, matching the
run-selection loop of Go net.IP.String. -/
def bestZeroRunAux (ip : List Nat) : Nat → Nat → Option (Nat × Nat) → Option (Nat × Nat)
  | 0, _, e => e
  | fuel+1, i, e =>
    if i < 16 then
      let j := zeroRunEnd ip 9 i
      let cur := match e with | some p => p.2 - p.1 | none => 0
      if j > i ∧ j - i > cur then bestZeroRunAux ip fuel (j + 2) (some (i, j))
      else bestZeroRunAux ip fuel (i + 2) e
    else e

/-- Zero run chosen for double-colon compression; runs of a single
group are not compressed, matching Go net.IP.String. -/
def bestZeroRun (ip : List Nat) : Option (Nat × Nat) :=
  match bestZeroRunAux ip 9 0 none with
  | some (e0, e1) => if e1 - e0 ≤ 2 then none else some (e0, e1)
  | none => none

/-- Group printing loop of Go net.IP.String for 16-byte values: groups
separated by colons, with the chosen zero run replaced by a double
colon.  When no run is compressed the callers pass 17 for both run
bounds, which no byte index reaches. -/
def v6BuildAux (ip : List Nat) (e0 e1 : Nat) : Nat → Nat → String
  | 0, _ => ""
  | fuel+1, i =>
    if i ≥ 16 then ""
    else if i = e0 then
      "::" ++ (if e1 ≥ 16 then "" else hexUtoa (v6GroupAt ip e1) ++ v6BuildAux ip e0 e1 fuel (e1 + 2))
    else
      (if i > 0 then ":" else "") ++ hexUtoa (v6GroupAt ip i) ++ v6BuildAux ip e0 e1 fuel (i + 2)

/-- Canonical textual form of a 16-byte IP value that is not
IPv4-in-IPv6, as Go net.IP.String produces. -/
def v6String (ip : List Nat) : String :=
  match bestZeroRun ip with
  | some (e0, e1) => v6BuildAux ip e0 e1 9 0
  | none => v6BuildAux ip 17 17 9 0

/-- Model of Go net.IP.String, covering the nil, IPv4, invalid-length
and IPv6 branches. -/
def ipString (ip : List Nat) : String :=
  if ip.length = 0 then "<nil>"
  else
    match to4 ip with
    | some l4 => dottedQuad (l4.getD 0 0) (l4.getD 1 0) (l4.getD 2 0) (l4.getD 3 0)
    | none => if ip.length ≠ 16 then "?" ++ hexStringOf ip else v6String ip

/-- Last index of a colon in a character list, used by the regexp
model below. -/
def lastColonIdx (l : List Char) : Option Nat :=
  (l.foldl (fun (acc : Nat × Option Nat) c =>
    (acc.1 + 1, if c = ':' then some acc.1 else acc.2)) (0, none)).2

/-- Leftmost-greedy match of the Go regexp dash dot-star colon, as
regexp.MustCompile FindString computes it: the match starts at the
first dash that is followed by a colon on the same line (dot does not
match a newline) and extends to the last such colon; none models the
empty FindString result. -/
def goRegexFindDashColon : List Char → Option (List Char)
  | [] => none
  | c :: rest =>
    if c = '-' then
      match lastColonIdx (rest.takeWhile (fun x => x ≠ '\n')) with
      | some j => some ('-' :: rest.take (j + 1))
      | none => goRegexFindDashColon rest
    else goRegexFindDashColon rest

/-- Fixed-width lowercase hex rendering used by strconv for u-escapes. -/
def hexPad : Nat → Nat → List Char
  | 0, _ => []
  | k+1, n => hexPad k (n / 16) ++ [hexDigitChar (n % 16)]

/-- Quoting of one character as the Go fmt %q verb (strconv.Quote)
performs it.  Printable-rune classification is restricted to ASCII
0x20 to 0x7e here; Go additionally keeps printable non-ASCII runes
literal, a difference that only changes the rendering of non-ASCII
flag values and is irrelevant to every property proved below. -/
def goQuoteChar (c : Char) : String :=
  if c = '"' then "\\\""
  else if c = '\\' then "\\\\"
  else if 0x20 ≤ c.toNat ∧ c.toNat ≤ 0x7e then String.mk [c]
  else if c.toNat = 7 then "\\a"
  else if c.toNat = 8 then "\\b"
  else if c.toNat = 12 then "\\f"
  else if c.toNat = 10 then "\\n"
  else if c.toNat = 13 then "\\r"
  else if c.toNat = 9 then "\\t"
  else if c.toNat = 11 then "\\v"
  else if c.toNat < 0x20 then "\\x" ++ String.mk (hexPad 2 c.toNat)
  else if c.toNat < 0x10000 then "\\u" ++ String.mk (hexPad 4 c.toNat)
  else "\\U" ++ String.mk (hexPad 8 c.toNat)

/-- Model of Go strconv.Quote, as used by the fmt %q verb in the flag
package error message for an invalid value: a double quote, the
escaped characters in order, a closing double quote. -/
def goQuote (s : String) : String :=
  String.mk ('"' :: s.data.foldr (fun c acc => (goQuoteChar c).data ++ acc) ['"'])

/-- Outcome of flag.FlagSet.Parse with ContinueOnError semantics: the
final state on success, or the raw error message together with the
state reached so far on failure. -/
inductive ParseOut (σ : Type) where
  | ok (st : σ)
  | fail (msg : String) (st : σ)
deriving DecidableEq, Repr

/-- Setter of one registered flag: given the raw value and the current
state it either updates the state or reports a validation message. -/
def FlagSetter (σ : Type) := String → σ → Except String σ

/-- Split a flag token at the first equals sign strictly after the
first character, as flag.FlagSet.parseOne does. -/
def splitEqAux : List Char → List Char × Option (List Char)
  | [] => ([], none)
  | c :: cs =>
    if c = '=' then ([], some cs)
    else
      let r := splitEqAux cs
      (c :: r.1, r.2)

/-- Name and optional inline value of a flag token body. -/
def splitFlagBody (l : List Char) : List Char × Option (List Char) :=
  match l with
  | [] => ([], none)
  | c :: cs =>
    let r := splitEqAux cs
    (c :: r.1, r.2)

/-- State carried out of a parse, whether it succeeded or failed. -/
def parseOutState {σ : Type} : ParseOut σ → σ
  | ParseOut.ok st => st
  | ParseOut.fail _ st => st

/-- Model of flag.FlagSet.Parse restricted to non-boolean flags, which
is all the maintenance flag sets register: tokens are scanned left to
right, a non-flag token stops parsing, a lone double dash terminates
it, the flag body is split at the first equals sign, an unknown name
fails (with the help pseudo-flag producing the ErrHelp message), a
missing value is taken from the next token, and a setter error is
wrapped in the invalid-value message with the value rendered by the
%q verb.  Fuel decreases once per consumed token, so one more than the
token count is always sufficient. -/
def parseArgsCore {σ : Type} (lookup : String → Option (FlagSetter σ)) :
    Nat → List String → σ → ParseOut σ
  | 0, _, st => ParseOut.fail "argument parsing exceeded fuel" st
  | fuel+1, args, st =>
    match args with
    | [] => ParseOut.ok st
    | s :: rest =>
      match s.data with
      | '-' :: c2 :: cs =>
        if c2 = '-' ∧ cs = [] then ParseOut.ok st
        else
          let body := if c2 = '-' then cs else c2 :: cs
          if body = [] ∨ body.head? = some '-' ∨ body.head? = some '=' then
            ParseOut.fail ("bad flag syntax: " ++ s) st
          else
            let nv := splitFlagBody body
            let nameStr := String.mk nv.1
            match lookup nameStr with
            | none =>
              if nameStr = "help" ∨ nameStr = "h" then
                ParseOut.fail "flag: help requested" st
              else
                ParseOut.fail ("flag provided but not defined: -" ++ nameStr) st
            | some setter =>
              match nv.2 with
              | some v =>
                match setter (String.mk v) st with
                | Except.ok st2 => parseArgsCore lookup fuel rest st2
                | Except.error emsg =>
                  ParseOut.fail ("invalid value " ++ goQuote (String.mk v) ++
                    " for flag -" ++ nameStr ++ ": " ++ emsg) st
              | none =>
                match rest with
                | v :: rest2 =>
                  match setter v st with
                  | Except.ok st2 => parseArgsCore lookup fuel rest2 st2
                  | Except.error emsg =>
                    ParseOut.fail ("invalid value " ++ goQuote v ++
                      " for flag -" ++ nameStr ++ ": " ++ emsg) st
                | [] => ParseOut.fail ("flag needs an argument: -" ++ nameStr) st
      | _ => ParseOut.ok st

/-- The five user-settable fields of the syncip configuration
(IPConfiguration in the Go code). -/
structure IPConfiguration where
  IpAddress : String
  Netmask : String
  Gateway : String
  PrimaryDns : String
  SecondaryDns : String
deriving DecidableEq, Repr

/-- Empty configuration, the state at the start of an invocation. -/
def emptyIPConfig : IPConfiguration :=
  { IpAddress := "", Netmask := "", Gateway := "", PrimaryDns := "", SecondaryDns := "" }

/-- Field selectors of IPConfiguration, for uniform statements. -/
inductive IPField where
  | ipAddress
  | netmask
  | gateway
  | primaryDns
  | secondaryDns
deriving DecidableEq, Repr

/-- Read one field. -/
def ipField : IPField → IPConfiguration → String
  | IPField.ipAddress, c => c.IpAddress
  | IPField.netmask, c => c.Netmask
  | IPField.gateway, c => c.Gateway
  | IPField.primaryDns, c => c.PrimaryDns
  | IPField.secondaryDns, c => c.SecondaryDns

/-- Write one field. -/
def setIPField : IPField → String → IPConfiguration → IPConfiguration
  | IPField.ipAddress, v, c => { c with IpAddress := v }
  | IPField.netmask, v, c => { c with Netmask := v }
  | IPField.gateway, v, c => { c with Gateway := v }
  | IPField.primaryDns, v, c => { c with PrimaryDns := v }
  | IPField.secondaryDns, v, c => { c with SecondaryDns := v }

/-- Model of the validateIP closure: the value must parse as an IP
address (net.ParseIP not nil); only then is it assigned. -/
def validateIPSetter (fid : IPField) : FlagSetter IPConfiguration := fun val cfg =>
  if (parseIPModel val).isSome then Except.ok (setIPField fid val cfg)
  else Except.error "not a valid ip address"

/-- Command-line flag name of each field, as registered by
handleMaintenanceSyncIP. -/
def flagNameOf : IPField → String
  | IPField.ipAddress => "staticip"
  | IPField.netmask => "netmask"
  | IPField.gateway => "gateway"
  | IPField.primaryDns => "primarydns"
  | IPField.secondaryDns => "secondarydns"

/-- Flag registry of the syncip flag set: exactly the five Func flags
registered in handleMaintenanceSyncIP (per the spec CLI table these
are the flags of this sub-command). -/
def syncIPFlagLookup (name : String) : Option (FlagSetter IPConfiguration) :=
  if name = "staticip" then some (validateIPSetter IPField.ipAddress)
  else if name = "netmask" then some (validateIPSetter IPField.netmask)
  else if name = "gateway" then some (validateIPSetter IPField.gateway)
  else if name = "primarydns" then some (validateIPSetter IPField.primaryDns)
  else if name = "secondarydns" then some (validateIPSetter IPField.secondaryDns)
  else none

/-- Parse of the syncip sub-command arguments. -/
def parseSyncIPArgs (args : List String) (cfg : IPConfiguration) : ParseOut IPConfiguration :=
  parseArgsCore syncIPFlagLookup (args.length + 1) args cfg

/-- Parse of a sub-command flag set with no registered flags
(syncclock, synchostname, syncdeviceinfo). -/
def parseNoFlags (args : List String) : ParseOut Unit :=
  parseArgsCore (fun _ => none) (args.length + 1) args ()

/-- Parse of the changepassword flag set: one string flag named
static, whose setter never fails. -/
def parseChangePasswordArgs (args : List String) (sp : String) : ParseOut String :=
  parseArgsCore (fun name =>
    if name = "static" then some (fun v (_ : String) => Except.ok v) else none)
    (args.length + 1) args sp

/-- The raw flag package error message for a value rejected by the
validateIP closure. -/
def invalidValueMsg (name v : String) : String :=
  "invalid value " ++ goQuote v ++ " for flag -" ++ name ++ ": not a valid ip address"

/-- Error classification of handleMaintenanceSyncIP: the leftmost
greedy dash-to-colon match of the raw parse error message is compared
against the five dash-name-colon patterns; everything else, including
the no-match case, falls back to IncorrectCommandLineParameters. -/
def classifySyncIPParseError (msg : String) : ReturnCode :=
  match goRegexFindDashColon msg.data with
  | some m =>
    if m = "-netmask:".data then ReturnCode.MissingOrIncorrectNetworkMask
    else if m = "-staticip:".data then ReturnCode.MissingOrIncorrectStaticIP
    else if m = "-gateway:".data then ReturnCode.MissingOrIncorrectGateway
    else if m = "-primarydns:".data then ReturnCode.MissingOrIncorrectPrimaryDNS
    else if m = "-secondarydns:".data then ReturnCode.MissingOrIncorrectSecondaryDNS
    else ReturnCode.IncorrectCommandLineParameters
  | none => ReturnCode.IncorrectCommandLineParameters

/-- Engine-reported wired LAN adapter settings (amt.InterfaceSettings);
only the hardware address field is consumed by the handlers modelled
here. -/
structure InterfaceSettings where
  MACAddress : String
deriving DecidableEq, Repr

/-- One host network interface as returned by the enumerator.  The
code consumes only the String form of the hardware address, so that
string is stored directly; the name distinguishes interfaces. -/
structure NetInterface where
  name : String
  hardwareAddr : String
deriving DecidableEq, Repr

/-- One bound address as the handler sees it: the type assertion to a
net.IPNet either succeeds, yielding the IP bytes and the mask bytes,
or fails. -/
inductive GoAddr where
  | ipNet (ip : List Nat) (mask : List Nat)
  | other
deriving DecidableEq, Repr

/-- External world of one maintenance invocation.  Engine and
enumerator calls return a value or an error; the Go pair-with-error
returns of GetOSDNSSuffix, os.Hostname and InterfaceAddrs are kept as
pairs because the handlers read the value component even on error.
The readPassword field is Modelled from the spec: the body of
ReadPasswordFromUser is outside the sources; per the spec the prompt
either obtains a credential (which becomes the session password) or
fails. -/
structure Env where
  lanSettings : Except Unit InterfaceSettings
  interfaces : Except Unit (List NetInterface)
  interfaceAddrs : NetInterface → List GoAddr × Option Unit
  osDNSSuffix : String × Option Unit
  osHostname : String × Option Unit
  readPassword : Option String

/-- OS-reported hostname data (HostnameInfo in the Go code). -/
structure HostnameInfo where
  Hostname : String
  DnsSuffixOS : String
deriving DecidableEq, Repr

/-- The mutable Flags receiver, restricted to the fields the
maintenance dispatcher and its sub-handlers read or write.  The
password field of the LocalConfig record is modelled directly. -/
structure Flags where
  commandLineArgs : List String
  Password : String
  URL : String
  Local : Bool
  SubCommand : String
  StaticPassword : String
  IpConfiguration : IPConfiguration
  HostnameInfo : HostnameInfo
  LocalConfigPassword : String
deriving DecidableEq, Repr

/-- Observable side effects of one invocation. -/
structure Trace where
  maintUsagePrinted : Bool
  handlerInvoked : Option String
  promptAttempted : Bool
  urlChecked : Bool
  engineQueried : Bool
  interfacesQueried : Bool
  addrsQueried : List NetInterface
deriving DecidableEq, Repr

/-- Trace with no effect recorded. -/
def Trace.empty : Trace :=
  { maintUsagePrinted := false, handlerInvoked := none, promptAttempted := false,
    urlChecked := false, engineQueried := false, interfacesQueried := false,
    addrsQueried := [] }

/-- Body of the address loop of handleMaintenanceSyncIP: a bound
address contributes when the type assertion succeeds, To4 is not nil
and the address is not loopback; each contribution overwrites both the
IP address and the netmask, so with no break in the loop the last
qualifying address wins. -/
def addrStep (cfg : IPConfiguration) (a : GoAddr) : IPConfiguration :=
  match a with
  | GoAddr.ipNet ip mask =>
    if (to4 ip).isSome && !(isLoopback ip) then
      { cfg with IpAddress := ipString ip, Netmask := ipString mask }
    else cfg
  | GoAddr.other => cfg

/-- Interface loop of handleMaintenanceSyncIP.  The outerErr argument
is the error of the earlier Interfaces call, nil (none) whenever this
loop runs; the loop body nevertheless tests it after calling
InterfaceAddrs, because the Go code discards the InterfaceAddrs error
into the blank identifier and re-tests the stale outer err variable.
Returns the final configuration and the list of interfaces whose
addresses were queried. -/
def scanIfaces (env : Env) (mac : String) (outerErr : Option Unit) :
    List NetInterface → IPConfiguration → IPConfiguration × List NetInterface
  | [], cfg => (cfg, [])
  | i :: rest, cfg =>
    if cfg.IpAddress ≠ "" then (cfg, [])
    else if i.hardwareAddr ≠ mac then scanIfaces env mac outerErr rest cfg
    else
      let addrs := (env.interfaceAddrs i).1
      let tailRes :=
        if outerErr.isSome then scanIfaces env mac outerErr rest cfg
        else scanIfaces env mac outerErr rest (addrs.foldl addrStep cfg)
      (tailRes.1, i :: tailRes.2)

/-- Model of handleMaintenanceSyncIP: parse the five flags, classify a
parse failure from its raw message, return early when a static IP was
assigned, otherwise query the engine for the wired LAN settings,
enumerate interfaces, and scan them for the first hardware-address
match with a usable bound address. -/
def handleMaintenanceSyncIP (env : Env) (f : Flags) : ReturnCode × Flags × Trace :=
  match parseSyncIPArgs (f.commandLineArgs.drop 3) f.IpConfiguration with
  | ParseOut.fail msg cfg1 =>
    (classifySyncIPParseError msg, { f with IpConfiguration := cfg1 }, Trace.empty)
  | ParseOut.ok cfg1 =>
    if cfg1.IpAddress ≠ "" then
      (ReturnCode.Success, { f with IpConfiguration := cfg1 }, Trace.empty)
    else
      match env.lanSettings with
      | Except.error _ =>
        (ReturnCode.AMTConnectionFailed, { f with IpConfiguration := cfg1 },
          { Trace.empty with engineQueried := true })
      | Except.ok amtLanIfc =>
        match env.interfaces with
        | Except.error _ =>
          (ReturnCode.OSNetworkInterfacesLookupFailed, { f with IpConfiguration := cfg1 },
            { Trace.empty with engineQueried := true, interfacesQueried := true })
        | Except.ok ifaces =>
          let scanned := scanIfaces env amtLanIfc.MACAddress none ifaces cfg1
          let tr := { Trace.empty with
                      engineQueried := true
                      interfacesQueried := true
                      addrsQueried := scanned.2 }
          if scanned.1.IpAddress = "" then
            (ReturnCode.OSNetworkInterfacesLookupFailed, { f with IpConfiguration := scanned.1 }, tr)
          else
            (ReturnCode.Success, { f with IpConfiguration := scanned.1 }, tr)

/-- Model of handleMaintenanceSyncClock: flag parsing only. -/
def handleMaintenanceSyncClock (f : Flags) : ReturnCode × Flags × Trace :=
  match parseNoFlags (f.commandLineArgs.drop 3) with
  | ParseOut.ok _ => (ReturnCode.Success, f, Trace.empty)
  | ParseOut.fail _ _ => (ReturnCode.IncorrectCommandLineParameters, f, Trace.empty)

/-- Model of handleMaintenanceSyncDeviceInfo: flag parsing only. -/
def handleMaintenanceSyncDeviceInfo (f : Flags) : ReturnCode × Flags × Trace :=
  match parseNoFlags (f.commandLineArgs.drop 3) with
  | ParseOut.ok _ => (ReturnCode.Success, f, Trace.empty)
  | ParseOut.fail _ _ => (ReturnCode.IncorrectCommandLineParameters, f, Trace.empty)

/-- Model of handleMaintenanceSyncHostname: after parsing, the OS DNS
suffix is stored (a failure of that read is only logged), then the OS
hostname is stored; a hostname error or an empty hostname fails with
OSNetworkInterfacesLookupFailed. -/
def handleMaintenanceSyncHostname (env : Env) (f : Flags) : ReturnCode × Flags × Trace :=
  match parseNoFlags (f.commandLineArgs.drop 3) with
  | ParseOut.fail _ _ => (ReturnCode.IncorrectCommandLineParameters, f, Trace.empty)
  | ParseOut.ok _ =>
    let f1 := { f with HostnameInfo := { f.HostnameInfo with DnsSuffixOS := env.osDNSSuffix.1 } }
    let f2 := { f1 with HostnameInfo := { f1.HostnameInfo with Hostname := env.osHostname.1 } }
    if env.osHostname.2.isSome then
      (ReturnCode.OSNetworkInterfacesLookupFailed, f2, Trace.empty)
    else if f2.HostnameInfo.Hostname = "" then
      (ReturnCode.OSNetworkInterfacesLookupFailed, f2, Trace.empty)
    else
      (ReturnCode.Success, f2, Trace.empty)

/-- Model of handleMaintenanceSyncChangePassword: one optional string
flag assigned to StaticPassword. -/
def handleMaintenanceSyncChangePassword (f : Flags) : ReturnCode × Flags × Trace :=
  match parseChangePasswordArgs (f.commandLineArgs.drop 3) f.StaticPassword with
  | ParseOut.ok sp => (ReturnCode.Success, { f with StaticPassword := sp }, Trace.empty)
  | ParseOut.fail _ sp =>
    (ReturnCode.IncorrectCommandLineParameters, { f with StaticPassword := sp }, Trace.empty)

/-- The fixed set of maintenance sub-command names. -/
def knownSubCommands : List String :=
  ["syncclock", "synchostname", "syncip", "changepassword", "syncdeviceinfo"]

/-- Record the invoked sub-handler in a result triple. -/
def withInvoked (name : String) (r : ReturnCode × Flags × Trace) : ReturnCode × Flags × Trace :=
  (r.1, r.2.1, { r.2.2 with handlerInvoked := some name })

/-- Switch of handleMaintenanceCommand over the sub-command name; the
default branch prints the maintenance usage and fails. -/
def runMaintenanceSubcommand (env : Env) (f : Flags) : ReturnCode × Flags × Trace :=
  match f.SubCommand with
  | "syncclock" => withInvoked "syncclock" (handleMaintenanceSyncClock f)
  | "synchostname" => withInvoked "synchostname" (handleMaintenanceSyncHostname env f)
  | "syncip" => withInvoked "syncip" (handleMaintenanceSyncIP env f)
  | "changepassword" => withInvoked "changepassword" (handleMaintenanceSyncChangePassword f)
  | "syncdeviceinfo" => withInvoked "syncdeviceinfo" (handleMaintenanceSyncDeviceInfo f)
  | _ => (ReturnCode.IncorrectCommandLineParameters, f,
      { Trace.empty with maintUsagePrinted := true })

/-- Third command-line argument, the sub-command name.  The dispatcher
is only reached with at least the two fixed leading arguments, so the
default covers exactly the no-sub-command case. -/
def subCommandArg (f : Flags) : String := f.commandLineArgs.getD 2 ""

/-- Model of handleMaintenanceCommand: with only the two fixed leading
arguments the usage is printed and the call fails; otherwise the third
argument is stored as the sub-command name and dispatched; a
non-success sub-handler code is returned at once; then, with an empty
session password, the user is prompted (failure of the prompt fails
the call); the resolved password is copied into the local
configuration; finally a non-local invocation with an empty URL prints
the usage and fails. -/
def handleMaintenanceCommand (env : Env) (f : Flags) : ReturnCode × Flags × Trace :=
  if f.commandLineArgs.length = 2 then
    (ReturnCode.IncorrectCommandLineParameters, f, { Trace.empty with maintUsagePrinted := true })
  else
    let f1 := { f with SubCommand := subCommandArg f }
    let r := runMaintenanceSubcommand env f1
    if r.1 ≠ ReturnCode.Success then r
    else
      let afterPrompt : Option (Flags × Trace) :=
        if r.2.1.Password = "" then
          match env.readPassword with
          | none => none
          | some p => some ({ r.2.1 with Password := p }, { r.2.2 with promptAttempted := true })
        else some (r.2.1, r.2.2)
      match afterPrompt with
      | none =>
        (ReturnCode.MissingOrIncorrectPassword, r.2.1, { r.2.2 with promptAttempted := true })
      | some (f2, tr2) =>
        let f3 := { f2 with LocalConfigPassword := f2.Password }
        if f3.Local then (ReturnCode.Success, f3, tr2)
        else
          if f3.URL = "" then
            (ReturnCode.MissingOrIncorrectURL, f3,
              { tr2 with urlChecked := true, maintUsagePrinted := true })
          else (ReturnCode.Success, f3, { tr2 with urlChecked := true })

/-- A bound address qualifies when the net.IPNet assertion succeeds,
To4 is not nil and the address is not loopback. -/
def qualifies (a : GoAddr) : Bool :=
  match a with
  | GoAddr.ipNet ip _ => (to4 ip).isSome && !(isLoopback ip)
  | GoAddr.other => false

/-- Last qualifying address of a bound-address list, together with its
mask; none when no address qualifies.  This is the address the code
keeps, since every qualifying address overwrites the previous one. -/
def lastQualifying : List GoAddr → Option (List Nat × List Nat)
  | [] => none
  | GoAddr.ipNet ip m :: rest =>
    match lastQualifying rest with
    | some p => some p
    | none => if qualifies (GoAddr.ipNet ip m) then some (ip, m) else none
  | GoAddr.other :: rest => lastQualifying rest

/-- Specification-side scan: the first interface in enumeration order
whose hardware address equals the engine MAC and whose bound addresses
contain a qualifying address determines the result, namely the last
qualifying address of that interface. -/
def firstResolving (env : Env) (mac : String) :
    List NetInterface → Option (NetInterface × List Nat × List Nat)
  | [] => none
  | i :: rest =>
    if i.hardwareAddr = mac then
      match lastQualifying (env.interfaceAddrs i).1 with
      | some p => some (i, p.1, p.2)
      | none => firstResolving env mac rest
    else firstResolving env mac rest

/-- Specification-side list of interfaces whose addresses are queried:
every MAC-matching interface up to and including the resolving one;
interfaces after the resolving one are not examined. -/
def queriedSpec (env : Env) (mac : String) : List NetInterface → List NetInterface
  | [] => []
  | i :: rest =>
    if i.hardwareAddr = mac then
      if (lastQualifying (env.interfaceAddrs i).1).isSome then [i]
      else i :: queriedSpec env mac rest
    else queriedSpec env mac rest

/-- Every field is either unchanged or holds a value that net.ParseIP
accepts.  This is the state relation preserved by the flag parse. -/
def fieldPreserved (cfg0 cfg1 : IPConfiguration) : Prop :=
  ∀ fid, ipField fid cfg1 = ipField fid cfg0 ∨ (parseIPModel (ipField fid cfg1)).isSome

/-- A field value parses as some IP address. -/
def validIPString (s : String) : Prop := (parseIPModel s).isSome = true

/-- A field value parses as an IPv4 address: net.ParseIP accepts it
and To4 of the result is not nil. -/
def isIPv4String (s : String) : Bool :=
  match parseIPModel s with
  | some ip => (to4 ip).isSome
  | none => false

/-- Well-formed enumerator output: every address that asserts to a
net.IPNet carries IP bytes below 256 and a four-byte mask of bytes
below 256, the shape the OS reports for IPv4 networks. -/
def envAddrsWF (env : Env) : Prop :=
  ∀ i ip m, GoAddr.ipNet ip m ∈ (env.interfaceAddrs i).1 →
    (∀ b ∈ ip, b < 256) ∧ m.length = 4 ∧ (∀ b ∈ m, b < 256)

/-- Baseline environment for concrete instances: every external call
fails or is empty. -/
def baseEnv : Env :=
  { lanSettings := Except.error ()
    interfaces := Except.error ()
    interfaceAddrs := fun _ => ([], none)
    osDNSSuffix := ("", none)
    osHostname := ("host1", none)
    readPassword := none }

/-- Baseline Flags state for concrete instances. -/
def baseFlags (args : List String) : Flags :=
  { commandLineArgs := args, Password := "", URL := "", Local := false, SubCommand := ""
    StaticPassword := "", IpConfiguration := emptyIPConfig
    HostnameInfo := { Hostname := "", DnsSuffixOS := "" }, LocalConfigPassword := "" }

section ScanLemmas

/-- A non-empty resolved address freezes the scan: the break at the
top of the interface loop fires immediately. -/
theorem scanIfaces_frozen (env : Env) (mac : String) (oe : Option Unit)
    (l : List NetInterface) (cfg : IPConfiguration) (h : cfg.IpAddress ≠ "") :
    scanIfaces env mac oe l cfg = (cfg, []) := by
  cases l with
  | nil => rfl
  | cons i rest => simp [scanIfaces, h]

/-- The address fold of one interface keeps the configuration when no
address qualifies and otherwise overwrites the IP address and netmask
with the last qualifying address. -/
theorem foldl_addrStep (addrs : List GoAddr) :
    ∀ cfg : IPConfiguration,
      addrs.foldl addrStep cfg =
        match lastQualifying addrs with
        | some p => { cfg with IpAddress := ipString p.1, Netmask := ipString p.2 }
        | none => cfg := by
  induction addrs with
  | nil => intro cfg; rfl
  | cons a rest ih =>
    intro cfg
    rw [List.foldl_cons, ih (addrStep cfg a)]
    cases a with
    | other =>
      simp only [lastQualifying, addrStep]
    | ipNet ip m =>
      by_cases hq : ((to4 ip).isSome && !(isLoopback ip)) = true
      · simp only [lastQualifying, addrStep, qualifies, hq, if_true]
        cases lastQualifying rest <;> rfl
      · have hq2 : ((to4 ip).isSome && !(isLoopback ip)) = false :=
          Bool.eq_false_iff.mpr hq
        simp only [lastQualifying, addrStep, qualifies, hq2, Bool.false_eq_true, if_false]
        cases lastQualifying rest <;> rfl

/-- To4 always returns four bytes. -/
theorem to4_length (ip l4 : List Nat) (h : to4 ip = some l4) : l4.length = 4 := by
  unfold to4 at h
  split at h
  · next hlen => cases h; omega
  · split at h
    · next hlen =>
      cases h
      simp [List.length_drop, hlen.1]
    · cases h

/-- The decimal rendering is never the empty list. -/
theorem uitoaCore_ne_nil (fuel v : Nat) : uitoaCore fuel v ≠ [] := by
  cases fuel with
  | zero => simp [uitoaCore]
  | succ fuel =>
    unfold uitoaCore
    split
    · simp
    · exact List.append_ne_nil_of_right_ne_nil _ (by simp)

/-- Character list of a dotted quad. -/
theorem dottedQuad_data (a b c d : Nat) :
    (dottedQuad a b c d).data =
      (uitoa a).data ++ '.' :: ((uitoa b).data ++ '.' :: ((uitoa c).data ++ '.' :: (uitoa d).data)) := by
  simp [dottedQuad, String.data_append]

/-- A dotted quad is a non-empty string. -/
theorem dottedQuad_ne_empty (a b c d : Nat) : dottedQuad a b c d ≠ "" := by
  intro h
  have h1 := dottedQuad_data a b c d
  rw [h] at h1
  exact absurd h1.symm (by simp)

/-- The String form of an IPv4-like value is not empty. -/
theorem ipString_ne_empty (ip l4 : List Nat) (h : to4 ip = some l4) : ipString ip ≠ "" := by
  unfold ipString
  split
  · next hlen =>
    exfalso
    unfold to4 at h
    split at h
    · omega
    · split at h
      · next hc => omega
      · cases h
  · rw [h]
    exact dottedQuad_ne_empty _ _ _ _

/-- A last qualifying address is a member of the list and qualifies. -/
theorem lastQualifying_some_qualifies :
    ∀ (l : List GoAddr) (p : List Nat × List Nat), lastQualifying l = some p →
      GoAddr.ipNet p.1 p.2 ∈ l ∧ (to4 p.1).isSome = true ∧ isLoopback p.1 = false := by
  intro l
  induction l with
  | nil => intro p h; cases h
  | cons a rest ih =>
    intro p h
    cases a with
    | other =>
      simp only [lastQualifying] at h
      have := ih _ h
      exact ⟨List.mem_cons_of_mem _ this.1, this.2⟩
    | ipNet ip m =>
      simp only [lastQualifying] at h
      cases hrest : lastQualifying rest with
      | some q =>
        rw [hrest] at h
        cases h
        have := ih _ hrest
        exact ⟨List.mem_cons_of_mem _ this.1, this.2⟩
      | none =>
        rw [hrest] at h
        simp only [qualifies] at h
        split at h
        · next hq =>
          cases h
          refine ⟨List.mem_cons_self _ _, ?_, ?_⟩
          · exact (Bool.and_eq_true _ _ |>.mp hq).1
          · have := (Bool.and_eq_true _ _ |>.mp hq).2
            simpa using this
        · cases h

/-- The interface loop refines the specification scan: starting from
an unresolved configuration it yields the fields of the first
MAC-matching interface that has a qualifying address (its last
qualifying address winning), and queries exactly the MAC-matching
interfaces up to and including the resolving one. -/
theorem scanIfaces_spec (env : Env) (mac : String) :
    ∀ (l : List NetInterface) (cfg : IPConfiguration), cfg.IpAddress = "" →
      scanIfaces env mac none l cfg =
        ((match firstResolving env mac l with
          | some t => { cfg with IpAddress := ipString t.2.1, Netmask := ipString t.2.2 }
          | none => cfg),
         queriedSpec env mac l) := by
  intro l
  induction l with
  | nil => intro cfg hcfg; rfl
  | cons i rest ih =>
    intro cfg hcfg
    by_cases hmac : i.hardwareAddr = mac
    · have hne : ¬ cfg.IpAddress ≠ "" := by simp [hcfg]
      rw [scanIfaces]
      simp only [hne, if_false, hmac, ite_not]
      simp only [Option.isSome_none, Bool.false_eq_true, if_false]
      rw [foldl_addrStep]
      cases hl : lastQualifying (env.interfaceAddrs i).1 with
      | none =>
        rw [ih cfg hcfg]
        simp [firstResolving, queriedSpec, hmac, hl]
      | some p =>
        have hres : ({ cfg with IpAddress := ipString p.1, Netmask := ipString p.2 }
            : IPConfiguration).IpAddress ≠ "" := by
          have hq : ∃ l4, to4 p.1 = some l4 := by
            have := lastQualifying_some_qualifies _ _ hl
            rcases Option.isSome_iff_exists.mp this.2.1 with ⟨l4, h4⟩
            exact ⟨l4, h4⟩
          rcases hq with ⟨l4, h4⟩
          exact ipString_ne_empty _ _ h4
        rw [scanIfaces_frozen env mac none rest _ hres]
        simp [firstResolving, queriedSpec, hmac, hl]
    · rw [scanIfaces]
      have hne : ¬ cfg.IpAddress ≠ "" := by simp [hcfg]
      simp only [hne, if_false]
      rw [if_pos (by simpa using hmac)]
      rw [ih cfg hcfg]
      simp [firstResolving, queriedSpec, hmac]

end ScanLemmas

section ParseLemmas

/-- The parse loop preserves any reflexive transitive relation that
every successful setter application preserves: the state only ever
changes through a setter. -/
theorem parseArgsCore_rel {σ : Type} (lookup : String → Option (FlagSetter σ))
    (R : σ → σ → Prop) (hrefl : ∀ s, R s s)
    (htrans : ∀ a b c, R a b → R b c → R a c)
    (hset : ∀ name fn, lookup name = some fn →
      ∀ v st st2, fn v st = Except.ok st2 → R st st2) :
    ∀ (fuel : Nat) (args : List String) (st : σ),
      R st (parseOutState (parseArgsCore lookup fuel args st)) := by
  intro fuel
  induction fuel with
  | zero => intro args st; exact hrefl st
  | succ fuel ih =>
    intro args st
    rw [parseArgsCore.eq_def]
    cases args with
    | nil => exact hrefl st
    | cons s rest =>
      simp only
      split
      · next c2 cs heq =>
        split
        · exact hrefl st
        · generalize (if c2 = '-' then cs else c2 :: cs) = body
          split
          · exact hrefl st
          · split
            · split
              · exact hrefl st
              · exact hrefl st
            · next setter hlook =>
              split
              · next v =>
                split
                · next st2 hset2 =>
                  exact htrans _ _ _ (hset _ _ hlook _ _ _ hset2) (ih rest st2)
                · exact hrefl st
              · split
                · next v rest2 =>
                  split
                  · next st2 hset2 =>
                    exact htrans _ _ _ (hset _ _ hlook _ _ _ hset2) (ih rest2 st2)
                  · exact hrefl st
                · exact hrefl st
      · exact hrefl st


/-- Setting a field to a validated value preserves the field
invariant. -/
theorem fieldPreserved_set (fid : IPField) (v : String) (st : IPConfiguration)
    (h : (parseIPModel v).isSome = true) : fieldPreserved st (setIPField fid v st) := by
  intro g
  cases fid <;> cases g <;> simp [ipField, setIPField, h]

/-- The relation fieldPreserved is reflexive. -/
theorem fieldPreserved_refl (st : IPConfiguration) : fieldPreserved st st :=
  fun _ => Or.inl rfl

/-- The relation fieldPreserved is transitive. -/
theorem fieldPreserved_trans (a b c : IPConfiguration)
    (h1 : fieldPreserved a b) (h2 : fieldPreserved b c) : fieldPreserved a c := by
  intro g
  cases h2 g with
  | inl h => rw [h]; exact h1 g
  | inr h => exact Or.inr h

/-- Every state coming out of the syncip flag parse, on success or on
failure, has each field either untouched or holding a value accepted
by net.ParseIP: validation happens at assignment time. -/
theorem parseSyncIP_fieldPreserved (args : List String) (cfg : IPConfiguration) :
    fieldPreserved cfg (parseOutState (parseSyncIPArgs args cfg)) := by
  apply parseArgsCore_rel syncIPFlagLookup fieldPreserved fieldPreserved_refl
    fieldPreserved_trans
  intro name fn hlook v st st2 hok
  unfold syncIPFlagLookup at hlook
  have hval : ∀ fid, validateIPSetter fid v st = Except.ok st2 →
      fieldPreserved st st2 := by
    intro fid hv
    unfold validateIPSetter at hv
    split at hv
    · next hsome => cases hv; exact fieldPreserved_set fid v st hsome
    · cases hv
  split at hlook
  · cases hlook; exact hval _ hok
  · split at hlook
    · cases hlook; exact hval _ hok
    · split at hlook
      · cases hlook; exact hval _ hok
      · split at hlook
        · cases hlook; exact hval _ hok
        · split at hlook
          · cases hlook; exact hval _ hok
          · cases hlook

/-- Accumulated decimal value is monotone in the accumulator seed. -/
theorem valFold_ge (l : List Char) :
    ∀ a : Nat, a ≤ l.foldl (fun x c => x * 10 + (c.toNat - 48)) a := by
  induction l with
  | nil => intro a; simp
  | cons c cs ih =>
    intro a
    calc a ≤ a * 10 + (c.toNat - 48) := by omega
    _ ≤ cs.foldl (fun x c => x * 10 + (c.toNat - 48)) (a * 10 + (c.toNat - 48)) := ih _

/-- The decimal scanner stops cleanly at a non-digit when digits were
already consumed. -/
theorem dtoiAux_stop (rest : List Char) (acc i : Nat) (hi : i ≠ 0)
    (hrest : ∀ c, rest.head? = some c → c.isDigit = false) :
    dtoiAux rest acc i = (acc, i, true) := by
  cases rest with
  | nil => simp [dtoiAux, hi]
  | cons c rs =>
    have hc := hrest c rfl
    simp [dtoiAux, hc, hi]

/-- The decimal scanner consumes exactly a non-empty all-digit block
whose value stays below the overflow bound, accumulating its value. -/
theorem dtoiAux_digits (L : List Char) :
    ∀ (rest : List Char) (acc i : Nat), L ≠ [] →
      (∀ c ∈ L, c.isDigit = true) →
      (∀ c, rest.head? = some c → c.isDigit = false) →
      L.foldl (fun x c => x * 10 + (c.toNat - 48)) acc < bigBound →
      dtoiAux (L ++ rest) acc i =
        (L.foldl (fun x c => x * 10 + (c.toNat - 48)) acc, i + L.length, true) := by
  induction L with
  | nil => intro rest acc i h; exact absurd rfl h
  | cons c L ih =>
    intro rest acc i _ hdig hrest hb
    have hc : c.isDigit = true := hdig c (List.mem_cons_self _ _)
    have hb2 : L.foldl (fun x c => x * 10 + (c.toNat - 48)) (acc * 10 + (c.toNat - 48)) <
        bigBound := by simpa using hb
    have hover : ¬ acc * 10 + (c.toNat - 48) ≥ bigBound := by
      have := valFold_ge L (acc * 10 + (c.toNat - 48))
      omega
    simp only [List.cons_append, dtoiAux, hc, if_true, hover, if_false]
    have hnorm : List.append L rest = L ++ rest := rfl
    rw [hnorm]
    cases hL : L with
    | nil =>
      subst hL
      simp only [List.nil_append] at hb2 ⊢
      rw [dtoiAux_stop rest _ _ (by omega) hrest]
      simp only [List.foldl_cons, List.foldl_nil, List.length_cons, List.length_nil,
        Prod.mk.injEq]
    | cons c2 L2 =>
      rw [← hL]
      rw [ih rest (acc * 10 + (c.toNat - 48)) (i + 1)
        (by rw [hL]; exact List.cons_ne_nil _ _)
        (fun x hx => hdig x (List.mem_cons_of_mem _ hx)) hrest hb2]
      simp only [List.foldl_cons, List.length_cons, Prod.mk.injEq, true_and, and_true]
      omega

/-- Digit characters are digits. -/
theorem digitChar_isDigit : ∀ d, d < 10 → (Nat.digitChar d).isDigit = true := by decide

/-- Digit characters decode back to their value. -/
theorem digitChar_sub48 : ∀ d, d < 10 → (Nat.digitChar d).toNat - 48 = d := by decide

/-- A nonzero digit does not render as the zero character. -/
theorem digitChar_ne_zero : ∀ d, d < 10 → 0 < d → Nat.digitChar d ≠ '0' := by decide

/-- The decimal rendering consists of digits, decodes back to its
value, and has no leading zero character when the value is positive. -/
theorem uitoaCore_props (fuel : Nat) :
    ∀ v : Nat, v ≤ fuel ∨ v < 10 →
      (∀ c ∈ uitoaCore fuel v, c.isDigit = true) ∧
      (uitoaCore fuel v).foldl (fun x c => x * 10 + (c.toNat - 48)) 0 = v ∧
      (0 < v → (uitoaCore fuel v).head? ≠ some '0') := by
  induction fuel with
  | zero =>
    intro v hv
    have hv10 : v < 10 := by rcases hv with h | h <;> omega
    have hmod : v % 10 = v := Nat.mod_eq_of_lt hv10
    refine ⟨?_, ?_, ?_⟩
    · intro c hc
      simp only [uitoaCore, List.mem_singleton] at hc
      subst hc
      exact digitChar_isDigit _ (by omega)
    · have hs := digitChar_sub48 v hv10
      simp [uitoaCore, hmod, hs]
    · intro hpos
      simp only [uitoaCore, List.head?_cons, hmod, ne_eq, Option.some.injEq]
      exact digitChar_ne_zero v hv10 hpos
  | succ fuel ih =>
    intro v hv
    by_cases h10 : v < 10
    · have hmod : v % 10 = v := Nat.mod_eq_of_lt h10
      refine ⟨?_, ?_, ?_⟩
      · intro c hc
        simp only [uitoaCore, h10, if_true, List.mem_singleton] at hc
        subst hc
        exact digitChar_isDigit _ h10
      · have hs := digitChar_sub48 v h10
        simp [uitoaCore, h10, hs]
      · intro hpos
        simp only [uitoaCore, h10, if_true, List.head?_cons, ne_eq, Option.some.injEq]
        exact digitChar_ne_zero v h10 hpos
    · have hvf : v ≤ fuel + 1 := by rcases hv with h | h <;> omega
      have hdiv : v / 10 ≤ fuel := by omega
      obtain ⟨ihd, ihv, ihh⟩ := ih (v / 10) (Or.inl hdiv)
      simp only [uitoaCore, h10, if_false]
      refine ⟨?_, ?_, ?_⟩
      · intro c hc
        rcases List.mem_append.mp hc with h | h
        · exact ihd c h
        · rw [List.mem_singleton] at h
          subst h
          exact digitChar_isDigit _ (Nat.mod_lt _ (by omega))
      · rw [List.foldl_append, ihv]
        simp only [List.foldl_cons, List.foldl_nil]
        rw [digitChar_sub48 (v % 10) (Nat.mod_lt _ (by omega))]
        omega
      · intro _
        cases hpre : uitoaCore fuel (v / 10) with
        | nil => exact absurd hpre (uitoaCore_ne_nil _ _)
        | cons a as =>
          have := ihh (by omega)
          rw [hpre] at this
          simp only [List.head?_cons, ne_eq, Option.some.injEq] at this
          simp [List.head?_cons, this]

/-- A dot is not a digit (used to stop field scans). -/
theorem head_dot_not_digit (X : List Char) :
    ∀ c, (('.' :: X : List Char)).head? = some c → c.isDigit = false := by
  intro c h
  simp only [List.head?_cons, Option.some.injEq] at h
  subst h
  decide

/-- The empty remainder stops field scans trivially. -/
theorem head_nil_not_digit :
    ∀ c, (([] : List Char)).head? = some c → c.isDigit = false := by
  intro c h
  cases h

/-- One dotted-quad field reads back the decimal rendering of a byte,
leaving exactly the remainder. -/
theorem readField_uitoa (n : Nat) (hn : n < 256) (rest : List Char)
    (hrest : ∀ c, rest.head? = some c → c.isDigit = false) :
    readField ((uitoa n).data ++ rest) = some (n, rest) := by
  obtain ⟨hd, hv, hh⟩ := uitoaCore_props n n (Or.inl le_rfl)
  have hne := uitoaCore_ne_nil n n
  have hb : (uitoaCore n n).foldl (fun x c => x * 10 + (c.toNat - 48)) 0 < bigBound := by
    rw [hv]
    unfold bigBound
    omega
  have hdata : (uitoa n).data = uitoaCore n n := rfl
  unfold readField
  rw [hdata, dtoiAux_digits _ rest 0 0 hne hd hrest hb, hv]
  have hnot255 : ¬ n > 255 := by omega
  have hlead : ¬ (0 + (uitoaCore n n).length > 1 ∧
      (uitoaCore n n ++ rest).head? = some '0') := by
    intro hcon
    cases hpre : uitoaCore n n with
    | nil => exact hne hpre
    | cons a as =>
      have hlen : (a :: as).length > 1 := by
        have := hcon.1
        rw [hpre] at this
        omega
      have hn0 : 0 < n := by
        by_contra hz
        have hn0 : n = 0 := by omega
        subst hn0
        have : uitoaCore 0 0 = [Nat.digitChar 0] := rfl
        rw [this] at hpre
        cases hpre
        simp at hlen
      have := hh hn0
      rw [hpre] at this
      simp only [List.head?_cons, ne_eq, Option.some.injEq] at this
      have hhead := hcon.2
      rw [hpre] at hhead
      simp only [List.cons_append, List.head?_cons, Option.some.injEq] at hhead
      exact this hhead
  simp only [Bool.not_true, Bool.false_eq_true, if_false, hnot255, hlead, if_neg,
    Option.some.injEq]
  have hdrop : (uitoaCore n n ++ rest).drop (0 + (uitoaCore n n).length) = rest := by
    rw [Nat.zero_add]
    exact List.drop_left _ _
  rw [hdrop]

/-- The structural scan of net.ParseIP sees a dot first in any
digit-block prefix followed by a dot. -/
theorem scanIPKind_digits_dot (L : List Char) (rest : List Char)
    (h : ∀ c ∈ L, c.isDigit = true) :
    scanIPKind (L ++ '.' :: rest) = some true := by
  induction L with
  | nil => simp [scanIPKind]
  | cons c cs ih =>
    have hc : c.isDigit = true := h c (List.mem_cons_self _ _)
    have hdot : c ≠ '.' := by
      intro heq
      subst heq
      exact absurd hc (by decide)
    have hcolon : c ≠ ':' := by
      intro heq
      subst heq
      exact absurd hc (by decide)
    simp only [List.cons_append, scanIPKind, hdot, hcolon, if_false]
    exact ih (fun x hx => h x (List.mem_cons_of_mem _ hx))

/-- The dotted-quad rendering of four bytes parses back through the
Go parseIPv4 model to exactly those bytes. -/
theorem parseV4Go_dottedQuad (a b c d : Nat)
    (ha : a < 256) (hb : b < 256) (hc : c < 256) (hd : d < 256) :
    parseV4Go (dottedQuad a b c d).data = some [a, b, c, d] := by
  rw [dottedQuad_data]
  have h4 : readField ((uitoa d).data ++ []) = some (d, []) :=
    readField_uitoa d hd [] head_nil_not_digit
  rw [List.append_nil] at h4
  have h3 : readField ((uitoa c).data ++ '.' :: (uitoa d).data) =
      some (c, '.' :: (uitoa d).data) :=
    readField_uitoa c hc _ (head_dot_not_digit _)
  have h2 : readField ((uitoa b).data ++ '.' :: ((uitoa c).data ++ '.' :: (uitoa d).data)) =
      some (b, '.' :: ((uitoa c).data ++ '.' :: (uitoa d).data)) :=
    readField_uitoa b hb _ (head_dot_not_digit _)
  have h1 : readField ((uitoa a).data ++
      '.' :: ((uitoa b).data ++ '.' :: ((uitoa c).data ++ '.' :: (uitoa d).data))) =
      some (a, '.' :: ((uitoa b).data ++ '.' :: ((uitoa c).data ++ '.' :: (uitoa d).data))) :=
    readField_uitoa a ha _ (head_dot_not_digit _)
  unfold parseV4Go
  rw [h1]
  simp only
  rw [h2]
  simp only
  rw [h3]
  simp only
  rw [h4]
  simp

/-- The dotted-quad rendering of four bytes is accepted by the
net.ParseIP model and yields the IPv4-in-IPv6 representation. -/
theorem parseIPModel_dottedQuad (a b c d : Nat)
    (ha : a < 256) (hb : b < 256) (hc : c < 256) (hd : d < 256) :
    parseIPModel (dottedQuad a b c d) = some (v4InV6 a b c d) := by
  unfold parseIPModel
  have hscan : scanIPKind (dottedQuad a b c d).data = some true := by
    rw [dottedQuad_data]
    exact scanIPKind_digits_dot _ _ (uitoaCore_props a a (Or.inl le_rfl)).1
  rw [hscan, parseV4Go_dottedQuad a b c d ha hb hc hd]

/-- A list of length four is literally a four-element list. -/
theorem list_length_four {α : Type} (l : List α) (h : l.length = 4) :
    ∃ a b c d, l = [a, b, c, d] := by
  match l with
  | [a, b, c, d] => exact ⟨a, b, c, d, rfl⟩
  | [] => simp at h
  | [a] => simp at h
  | [a, b] => simp at h
  | [a, b, c] => simp at h
  | a :: b :: c :: d :: e :: t => simp at h

/-- A value narrowed by To4 has nonzero length. -/
theorem to4_some_length_ne_zero (ip l4 : List Nat) (h : to4 ip = some l4) :
    ¬ ip.length = 0 := by
  unfold to4 at h
  split at h
  · omega
  · split at h
    · next hc => omega
    · cases h

/-- The String form of an IPv4-like value with byte components below
256 is accepted by the net.ParseIP model. -/
theorem ipString_valid (ip l4 : List Nat) (h4 : to4 ip = some l4)
    (hb : ∀ x ∈ l4, x < 256) : (parseIPModel (ipString ip)).isSome = true := by
  have hlen := to4_length ip l4 h4
  obtain ⟨a, b, c, d, habcd⟩ := list_length_four l4 hlen
  subst habcd
  have ha2 : a < 256 := hb a (by simp)
  have hb2 : b < 256 := hb b (by simp)
  have hc2 : c < 256 := hb c (by simp)
  have hd2 : d < 256 := hb d (by simp)
  unfold ipString
  rw [if_neg (to4_some_length_ne_zero ip _ h4), h4]
  show (parseIPModel (dottedQuad a b c d)).isSome = true
  rw [parseIPModel_dottedQuad a b c d ha2 hb2 hc2 hd2]
  rfl

/-- Hex digit characters are never a dash. -/
theorem hexDigitChar_ne_dash (n : Nat) : hexDigitChar n ≠ '-' := by
  unfold hexDigitChar
  split <;> decide

/-- Fixed-width hex renderings contain no dash. -/
theorem hexPad_no_dash (k : Nat) : ∀ n, '-' ∉ hexPad k n := by
  induction k with
  | zero => intro n; simp [hexPad]
  | succ k ih =>
    intro n
    simp only [hexPad, List.mem_append, List.mem_singleton]
    intro h
    rcases h with h | h
    · exact ih _ h
    · exact hexDigitChar_ne_dash _ h.symm

/-- Backslash escapes of the form backslash, marker, hex digits
contain no dash. -/
theorem hex_escape_no_dash (pre : Char) (hpre : pre ≠ '-') (k n : Nat) :
    '-' ∉ ('\\' :: pre :: hexPad k n) := by
  intro h
  simp only [List.mem_cons] at h
  rcases h with h | h | h
  · exact absurd h (by decide)
  · exact hpre h.symm
  · exact hexPad_no_dash k n h

/-- Quoting a non-dash character produces no dash. -/
theorem goQuoteChar_no_dash (c : Char) (hc : c ≠ '-') : '-' ∉ (goQuoteChar c).data := by
  unfold goQuoteChar
  by_cases h1 : c = '"'
  · rw [if_pos h1]; decide
  · rw [if_neg h1]
    by_cases h2 : c = '\\'
    · rw [if_pos h2]; decide
    · rw [if_neg h2]
      by_cases h3 : 0x20 ≤ c.toNat ∧ c.toNat ≤ 0x7e
      · rw [if_pos h3]
        intro hmem
        have he : (String.mk [c]).data = [c] := rfl
        rw [he, List.mem_singleton] at hmem
        exact hc hmem.symm
      · rw [if_neg h3]
        by_cases h4 : c.toNat = 7
        · rw [if_pos h4]; decide
        · rw [if_neg h4]
          by_cases h5 : c.toNat = 8
          · rw [if_pos h5]; decide
          · rw [if_neg h5]
            by_cases h6 : c.toNat = 12
            · rw [if_pos h6]; decide
            · rw [if_neg h6]
              by_cases h7 : c.toNat = 10
              · rw [if_pos h7]; decide
              · rw [if_neg h7]
                by_cases h8 : c.toNat = 13
                · rw [if_pos h8]; decide
                · rw [if_neg h8]
                  by_cases h9 : c.toNat = 9
                  · rw [if_pos h9]; decide
                  · rw [if_neg h9]
                    by_cases h10 : c.toNat = 11
                    · rw [if_pos h10]; decide
                    · rw [if_neg h10]
                      by_cases h11 : c.toNat < 0x20
                      · rw [if_pos h11]
                        intro hmem
                        have he : (("\\x" ++ String.mk (hexPad 2 c.toNat)).data) =
                            '\\' :: 'x' :: hexPad 2 c.toNat := rfl
                        rw [he] at hmem
                        exact hex_escape_no_dash 'x' (by decide) 2 c.toNat hmem
                      · rw [if_neg h11]
                        by_cases h12 : c.toNat < 0x10000
                        · rw [if_pos h12]
                          intro hmem
                          have he : (("\\u" ++ String.mk (hexPad 4 c.toNat)).data) =
                              '\\' :: 'u' :: hexPad 4 c.toNat := rfl
                          rw [he] at hmem
                          exact hex_escape_no_dash 'u' (by decide) 4 c.toNat hmem
                        · rw [if_neg h12]
                          intro hmem
                          have he : (("\\U" ++ String.mk (hexPad 8 c.toNat)).data) =
                              '\\' :: 'U' :: hexPad 8 c.toNat := rfl
                          rw [he] at hmem
                          exact hex_escape_no_dash 'U' (by decide) 8 c.toNat hmem

/-- The quoted body of a dash-free value contains no dash. -/
theorem goQuoteBody_no_dash (l : List Char) (h : ∀ c ∈ l, c ≠ '-') :
    '-' ∉ l.foldr (fun c acc => (goQuoteChar c).data ++ acc) ['"'] := by
  induction l with
  | nil => simp
  | cons c cs ih =>
    simp only [List.foldr_cons, List.mem_append]
    intro hmem
    rcases hmem with h1 | h1
    · exact goQuoteChar_no_dash c (h c (List.mem_cons_self _ _)) h1
    · exact ih (fun x hx => h x (List.mem_cons_of_mem _ hx)) h1

/-- Go quoting of a dash-free value produces no dash. -/
theorem goQuote_no_dash (v : String) (h : '-' ∉ v.data) : '-' ∉ (goQuote v).data := by
  unfold goQuote
  intro hmem
  have he : (String.mk ('"' :: v.data.foldr (fun c acc => (goQuoteChar c).data ++ acc) ['"'])).data =
      '"' :: v.data.foldr (fun c acc => (goQuoteChar c).data ++ acc) ['"'] := rfl
  rw [he, List.mem_cons] at hmem
  rcases hmem with h1 | h1
  · exact absurd h1 (by decide)
  · exact goQuoteBody_no_dash v.data (fun c hc he2 => h (he2 ▸ hc)) h1

/-- The leftmost-greedy dash-to-colon search skips any dash-free
prefix. -/
theorem find_append_of_no_dash (l1 l2 : List Char) (h : '-' ∉ l1) :
    goRegexFindDashColon (l1 ++ l2) = goRegexFindDashColon l2 := by
  induction l1 with
  | nil => rfl
  | cons c cs ih =>
    have hc : ¬ c = '-' := by
      intro he
      exact h (by rw [he]; exact List.mem_cons_self _ _)
    simp only [List.cons_append, goRegexFindDashColon, hc, if_false]
    exact ih (fun hm => h (List.mem_cons_of_mem _ hm))

/-- Error code named after each syncip flag. -/
def namedCodeFor : IPField → ReturnCode
  | IPField.ipAddress => ReturnCode.MissingOrIncorrectStaticIP
  | IPField.netmask => ReturnCode.MissingOrIncorrectNetworkMask
  | IPField.gateway => ReturnCode.MissingOrIncorrectGateway
  | IPField.primaryDns => ReturnCode.MissingOrIncorrectPrimaryDNS
  | IPField.secondaryDns => ReturnCode.MissingOrIncorrectSecondaryDNS

/-- The invalid-value message for one of the five flags with a
dash-free malformed value classifies to the code named after that
flag. -/
theorem classify_invalidValueMsg (fid : IPField) (v : String) (hnd : '-' ∉ v.data) :
    classifySyncIPParseError (invalidValueMsg (flagNameOf fid) v) = namedCodeFor fid := by
  have hq := goQuote_no_dash v hnd
  have h1 : ∀ name : String, (invalidValueMsg name v).data =
      "invalid value ".data ++ ((goQuote v).data ++ (" for flag ".data ++
        ('-' :: (name.data ++ ": not a valid ip address".data)))) := by
    intro name
    have h2 : (" for flag -" : String).data = " for flag ".data ++ ['-'] := by decide
    simp only [invalidValueMsg, String.data_append, h2]
    simp [List.append_assoc]
  unfold classifySyncIPParseError
  rw [h1 (flagNameOf fid)]
  rw [find_append_of_no_dash _ _ (by decide)]
  rw [find_append_of_no_dash _ _ hq]
  rw [find_append_of_no_dash _ _ (by decide)]
  cases fid <;> decide

/-- Sub-handler traces never record a prompt or a URL check: those
effects belong to the dispatcher alone. -/
theorem runSub_trace_fields (env : Env) (f : Flags) :
    (runMaintenanceSubcommand env f).2.2.promptAttempted = false ∧
    (runMaintenanceSubcommand env f).2.2.urlChecked = false := by
  unfold runMaintenanceSubcommand
  split
  · unfold withInvoked handleMaintenanceSyncClock
    split <;> simp [Trace.empty]
  · unfold withInvoked handleMaintenanceSyncHostname
    split
    · simp [Trace.empty]
    · dsimp only
      split
      · simp [Trace.empty]
      · split <;> simp [Trace.empty]
  · unfold withInvoked handleMaintenanceSyncIP
    split
    · simp [Trace.empty]
    · split
      · simp [Trace.empty]
      · split
        · simp [Trace.empty]
        · split
          · simp [Trace.empty]
          · dsimp only
            split <;> simp [Trace.empty]
  · unfold withInvoked handleMaintenanceSyncChangePassword
    split <;> simp [Trace.empty]
  · unfold withInvoked handleMaintenanceSyncDeviceInfo
    split <;> simp [Trace.empty]
  · simp [Trace.empty]

/-- Sub-handlers leave the session password, the URL, the local flag
and the local-configuration password untouched. -/
theorem runSub_preserves (env : Env) (f : Flags) :
    (runMaintenanceSubcommand env f).2.1.Password = f.Password ∧
    (runMaintenanceSubcommand env f).2.1.URL = f.URL ∧
    (runMaintenanceSubcommand env f).2.1.Local = f.Local ∧
    (runMaintenanceSubcommand env f).2.1.LocalConfigPassword = f.LocalConfigPassword := by
  unfold runMaintenanceSubcommand
  split
  · unfold withInvoked handleMaintenanceSyncClock
    split <;> simp
  · unfold withInvoked handleMaintenanceSyncHostname
    split
    · simp
    · dsimp only
      split
      · simp
      · split <;> simp
  · unfold withInvoked handleMaintenanceSyncIP
    split
    · simp
    · split
      · simp
      · split
        · simp
        · split
          · simp
          · dsimp only
            split <;> simp
  · unfold withInvoked handleMaintenanceSyncChangePassword
    split <;> simp
  · unfold withInvoked handleMaintenanceSyncDeviceInfo
    split <;> simp
  · simp

/-- A failing sub-handler short-circuits the dispatcher: the result is
exactly the sub-handler result. -/
theorem dispatch_subfail (env : Env) (f : Flags)
    (hlen : ¬ f.commandLineArgs.length = 2)
    (hfail : (runMaintenanceSubcommand env
      { f with SubCommand := subCommandArg f }).1 ≠ ReturnCode.Success) :
    handleMaintenanceCommand env f =
      runMaintenanceSubcommand env { f with SubCommand := subCommandArg f } := by
  unfold handleMaintenanceCommand
  rw [if_neg hlen]
  dsimp only
  rw [if_pos hfail]

/-- The sub-command switch reduces to the hostname handler when the
stored name is synchostname. -/
theorem runSub_synchostname (env : Env) (f : Flags) (h : f.SubCommand = "synchostname") :
    runMaintenanceSubcommand env f =
      withInvoked "synchostname" (handleMaintenanceSyncHostname env f) := by
  unfold runMaintenanceSubcommand
  split
  · next heq => rw [h] at heq; exact absurd heq (by decide)
  · rfl
  · next heq => rw [h] at heq; exact absurd heq (by decide)
  · next heq => rw [h] at heq; exact absurd heq (by decide)
  · next heq => rw [h] at heq; exact absurd heq (by decide)
  · contradiction

/-- The sub-command switch reduces to the usage-printing failure when
the stored name is outside the fixed set. -/
theorem runSub_unknown (env : Env) (f : Flags) (h : f.SubCommand ∉ knownSubCommands) :
    runMaintenanceSubcommand env f =
      (ReturnCode.IncorrectCommandLineParameters, f,
        { Trace.empty with maintUsagePrinted := true }) := by
  unfold runMaintenanceSubcommand
  split
  · next heq => exact absurd (by rw [heq]; decide) h
  · next heq => exact absurd (by rw [heq]; decide) h
  · next heq => exact absurd (by rw [heq]; decide) h
  · next heq => exact absurd (by rw [heq]; decide) h
  · next heq => exact absurd (by rw [heq]; decide) h
  · rfl

/-- The resolving interface of the specification scan is a member of
the enumeration, matches the engine MAC, and its resolved address is a
qualifying member of its bound-address list. -/
theorem firstResolving_mem (env : Env) (mac : String) :
    ∀ (l : List NetInterface) (t : NetInterface × List Nat × List Nat),
      firstResolving env mac l = some t →
        GoAddr.ipNet t.2.1 t.2.2 ∈ (env.interfaceAddrs t.1).1 ∧
        (to4 t.2.1).isSome = true ∧ isLoopback t.2.1 = false ∧
        t.1 ∈ l ∧ t.1.hardwareAddr = mac := by
  intro l
  induction l with
  | nil => intro t h; cases h
  | cons i rest ih =>
    intro t h
    unfold firstResolving at h
    split at h
    · next hmac =>
      cases hlq : lastQualifying (env.interfaceAddrs i).1 with
      | some p =>
        rw [hlq] at h
        cases h
        have hm := lastQualifying_some_qualifies _ _ hlq
        exact ⟨hm.1, hm.2.1, hm.2.2, List.mem_cons_self _ _, hmac⟩
      | none =>
        rw [hlq] at h
        have := ih t h
        exact ⟨this.1, this.2.1, this.2.2.1, List.mem_cons_of_mem _ this.2.2.2.1, this.2.2.2.2⟩
    · have := ih t h
      exact ⟨this.1, this.2.1, this.2.2.1, List.mem_cons_of_mem _ this.2.2.2.1, this.2.2.2.2⟩

/-- The interface scan reads only the address component of the
enumerator, never its error component. -/
theorem scanIfaces_congr (env1 env2 : Env) (mac : String) (oe : Option Unit)
    (h : ∀ j, (env1.interfaceAddrs j).1 = (env2.interfaceAddrs j).1) :
    ∀ (l : List NetInterface) (cfg : IPConfiguration),
      scanIfaces env1 mac oe l cfg = scanIfaces env2 mac oe l cfg := by
  intro l
  induction l with
  | nil => intro cfg; rfl
  | cons i rest ih =>
    intro cfg
    unfold scanIfaces
    rw [h i]
    dsimp only
    rw [ih cfg, ih (List.foldl addrStep cfg (env2.interfaceAddrs i).1)]

/-- Interface fixture matching the engine MAC. -/
def ifcAA : NetInterface := { name := "eth0", hardwareAddr := "AA:BB:CC:DD:EE:FF" }

/-- Environment with one matching interface carrying two qualifying
bound addresses. -/
def envTwoAddrs : Env :=
  { lanSettings := Except.ok { MACAddress := "AA:BB:CC:DD:EE:FF" }
    interfaces := Except.ok [ifcAA]
    interfaceAddrs := fun _ =>
      ([GoAddr.ipNet [192, 168, 1, 20] [255, 255, 255, 0],
        GoAddr.ipNet [192, 168, 1, 21] [255, 255, 255, 0]], none)
    osDNSSuffix := ("", none)
    osHostname := ("host1", none)
    readPassword := none }

/-- Environment with one matching interface carrying one qualifying
bound address. -/
def envOneAddr : Env :=
  { lanSettings := Except.ok { MACAddress := "AA:BB:CC:DD:EE:FF" }
    interfaces := Except.ok [ifcAA]
    interfaceAddrs := fun _ =>
      ([GoAddr.ipNet [192, 168, 1, 20] [255, 255, 255, 0]], none)
    osDNSSuffix := ("", none)
    osHostname := ("host1", none)
    readPassword := none }

/-- Arguments of a syncip invocation with no flags. -/
def syncIPBareFlags : Flags := baseFlags ["rpc", "maintenance", "syncip"]

/-- C1: the claim says the resolver takes the first bound address of
the matching interface that is IPv4 and not loopback.  On an interface
whose address list holds the qualifying addresses 192.168.1.20 then
192.168.1.21, the code resolves 192.168.1.21: the inner address loop
has no break, so each qualifying address overwrites the previous one
and the last one wins, refuting the first-address reading. -/
theorem c1_first_address_counterexample :
    (handleMaintenanceSyncIP envTwoAddrs syncIPBareFlags).1 = ReturnCode.Success ∧
    (handleMaintenanceSyncIP envTwoAddrs syncIPBareFlags).2.1.IpConfiguration.IpAddress =
      "192.168.1.21" ∧
    ¬ (handleMaintenanceSyncIP envTwoAddrs syncIPBareFlags).2.1.IpConfiguration.IpAddress =
      "192.168.1.20" := by
  refine ⟨by decide, by decide, by decide⟩

/-- C1 (amended): with no static IP and successful engine and
enumerator calls, the resolver resolves from the first
enumeration-order interface whose hardware address equals the engine
MAC and whose bound addresses contain a qualifying (IPv4,
non-loopback) address, taking the last such qualifying address for
both the IP address and the netmask; interfaces after the resolving
one are not examined, and with no resolving interface the scan leaves
the configuration unresolved. -/
theorem c1_resolution_amended (env : Env) (f : Flags) (cfg1 : IPConfiguration)
    (amtIfc : InterfaceSettings) (ifaces : List NetInterface)
    (hparse : parseSyncIPArgs (f.commandLineArgs.drop 3) f.IpConfiguration = ParseOut.ok cfg1)
    (hnostatic : cfg1.IpAddress = "")
    (heng : env.lanSettings = Except.ok amtIfc)
    (hifs : env.interfaces = Except.ok ifaces) :
    (match firstResolving env amtIfc.MACAddress ifaces with
     | some t =>
       (handleMaintenanceSyncIP env f).1 = ReturnCode.Success ∧
       (handleMaintenanceSyncIP env f).2.1.IpConfiguration =
         { cfg1 with IpAddress := ipString t.2.1, Netmask := ipString t.2.2 }
     | none =>
       (handleMaintenanceSyncIP env f).1 = ReturnCode.OSNetworkInterfacesLookupFailed ∧
       (handleMaintenanceSyncIP env f).2.1.IpConfiguration = cfg1) ∧
    (handleMaintenanceSyncIP env f).2.2.addrsQueried =
      queriedSpec env amtIfc.MACAddress ifaces := by
  unfold handleMaintenanceSyncIP
  rw [hparse]
  dsimp only
  rw [if_neg (by simp [hnostatic]), heng, hifs]
  dsimp only
  rw [scanIfaces_spec env amtIfc.MACAddress ifaces cfg1 hnostatic]
  cases hres : firstResolving env amtIfc.MACAddress ifaces with
  | none =>
    dsimp only
    rw [if_pos hnostatic]
    exact ⟨⟨rfl, rfl⟩, rfl⟩
  | some t =>
    have hmem := firstResolving_mem env amtIfc.MACAddress ifaces t hres
    obtain ⟨l4, hl4⟩ := Option.isSome_iff_exists.mp hmem.2.1
    have hne : ipString t.2.1 ≠ "" := ipString_ne_empty _ _ hl4
    dsimp only
    rw [if_neg (by simpa using hne)]
    exact ⟨⟨rfl, rfl⟩, rfl⟩

/-- C1 (amended) at the specification example: one matching interface
with the single qualifying address 192.168.1.20 masked by
255.255.255.0 resolves exactly those values. -/
theorem c1_resolution_amended_witness :
    (handleMaintenanceSyncIP envOneAddr syncIPBareFlags).1 = ReturnCode.Success ∧
    (handleMaintenanceSyncIP envOneAddr syncIPBareFlags).2.1.IpConfiguration.IpAddress =
      "192.168.1.20" ∧
    (handleMaintenanceSyncIP envOneAddr syncIPBareFlags).2.1.IpConfiguration.Netmask =
      "255.255.255.0" := by
  have h := c1_resolution_amended envOneAddr syncIPBareFlags emptyIPConfig
    { MACAddress := "AA:BB:CC:DD:EE:FF" } [ifcAA] (by decide) rfl rfl rfl
  exact ⟨h.1.1, by rw [h.1.2]; decide, by rw [h.1.2]; decide⟩

/-- C3: a parse that assigned a non-empty static IP ends the handler
at once with Success, the configuration exactly as parsed, and an
empty trace: the engine client and the interface enumerator are never
queried. -/
theorem c3_static_ip_short_circuit (env : Env) (f : Flags) (cfg1 : IPConfiguration)
    (hparse : parseSyncIPArgs (f.commandLineArgs.drop 3) f.IpConfiguration = ParseOut.ok cfg1)
    (hstatic : cfg1.IpAddress ≠ "") :
    handleMaintenanceSyncIP env f =
      (ReturnCode.Success, { f with IpConfiguration := cfg1 }, Trace.empty) := by
  unfold handleMaintenanceSyncIP
  rw [hparse]
  dsimp only
  rw [if_pos hstatic]

/-- C3 at the specification example: staticip 10.0.0.5 alone resolves
to exactly that address with all other fields empty, against an
environment whose engine query would fail if it were made. -/
theorem c3_static_ip_short_circuit_witness :
    handleMaintenanceSyncIP baseEnv (baseFlags ["rpc", "maintenance", "syncip", "-staticip", "10.0.0.5"]) =
      (ReturnCode.Success,
        { baseFlags ["rpc", "maintenance", "syncip", "-staticip", "10.0.0.5"] with
            IpConfiguration := { emptyIPConfig with IpAddress := "10.0.0.5" } },
        Trace.empty) := by
  exact c3_static_ip_short_circuit baseEnv _ { emptyIPConfig with IpAddress := "10.0.0.5" }
    (by decide) (by decide)

/-- C4: with no static IP assigned, the handler fails with
AMTConnectionFailed when the engine query errors, with
OSNetworkInterfacesLookupFailed when interface enumeration errors, and
with OSNetworkInterfacesLookupFailed when the scan completes without
resolving an address. -/
theorem c4_error_codes (env : Env) (f : Flags) (cfg1 : IPConfiguration)
    (hparse : parseSyncIPArgs (f.commandLineArgs.drop 3) f.IpConfiguration = ParseOut.ok cfg1)
    (hnostatic : cfg1.IpAddress = "") :
    (handleMaintenanceSyncIP env f).1 =
      (match env.lanSettings with
       | Except.error _ => ReturnCode.AMTConnectionFailed
       | Except.ok amtIfc =>
         match env.interfaces with
         | Except.error _ => ReturnCode.OSNetworkInterfacesLookupFailed
         | Except.ok ifaces =>
           if (scanIfaces env amtIfc.MACAddress none ifaces cfg1).1.IpAddress = "" then
             ReturnCode.OSNetworkInterfacesLookupFailed
           else ReturnCode.Success) := by
  unfold handleMaintenanceSyncIP
  rw [hparse]
  dsimp only
  rw [if_neg (by simp [hnostatic])]
  cases heng : env.lanSettings with
  | error e => rfl
  | ok amtIfc =>
    cases hifs : env.interfaces with
    | error e => rfl
    | ok ifaces =>
      dsimp only
      by_cases hscan : (scanIfaces env amtIfc.MACAddress none ifaces cfg1).1.IpAddress = ""
      · rw [if_pos hscan, if_pos hscan]
      · rw [if_neg hscan, if_neg hscan]

/-- C4 at a concrete input: a failing engine query yields
AMTConnectionFailed. -/
theorem c4_error_codes_witness :
    (handleMaintenanceSyncIP baseEnv syncIPBareFlags).1 = ReturnCode.AMTConnectionFailed := by
  have h := c4_error_codes baseEnv syncIPBareFlags emptyIPConfig (by decide) rfl
  exact h.trans rfl

/-- C2: the claim says a malformed value for one of the five flags
always yields the correspondingly named error code.  The value a-b is
malformed for netmask (net.ParseIP rejects it) and flag parsing fails
with the invalid-value message for netmask, yet the handler returns
IncorrectCommandLineParameters: the dash inside the value becomes the
leftmost dash of the raw message, so the greedy dash-to-colon match is
not the dash-netmask-colon pattern and classification falls through to
the default. -/
theorem c2_parse_error_counterexample :
    parseSyncIPArgs ((baseFlags ["rpc", "maintenance", "syncip", "-netmask", "a-b"]).commandLineArgs.drop 3)
        emptyIPConfig =
      ParseOut.fail (invalidValueMsg "netmask" "a-b") emptyIPConfig ∧
    (handleMaintenanceSyncIP baseEnv (baseFlags ["rpc", "maintenance", "syncip", "-netmask", "a-b"])).1 =
      ReturnCode.IncorrectCommandLineParameters ∧
    ¬ (handleMaintenanceSyncIP baseEnv (baseFlags ["rpc", "maintenance", "syncip", "-netmask", "a-b"])).1 =
      ReturnCode.MissingOrIncorrectNetworkMask := by
  refine ⟨by decide, by decide, by decide⟩

/-- C2 (amended): when flag parsing fails with the invalid-value error
for one of the five flags and the malformed value contains no dash
character, the handler returns exactly the correspondingly named error
code and the field was not assigned the malformed value; any parse
failure whose leftmost greedy dash-to-colon match is not one of the
five dash-name-colon patterns (including the no-match case) returns
IncorrectCommandLineParameters. -/
theorem c2_parse_error_amended (fid : IPField) (v : String) (hnd : '-' ∉ v.data)
    (hbad : parseIPModel v = none) (env : Env) (f : Flags)
    (cfg1 : IPConfiguration) (msg : String)
    (hfail : parseSyncIPArgs (f.commandLineArgs.drop 3) f.IpConfiguration =
      ParseOut.fail msg cfg1) :
    (msg = invalidValueMsg (flagNameOf fid) v →
      (handleMaintenanceSyncIP env f).1 = namedCodeFor fid ∧
      (ipField fid cfg1 = ipField fid f.IpConfiguration ∨ ipField fid cfg1 ≠ v)) ∧
    (∀ m, goRegexFindDashColon msg.data = some m →
      m ≠ "-netmask:".data → m ≠ "-staticip:".data → m ≠ "-gateway:".data →
      m ≠ "-primarydns:".data → m ≠ "-secondarydns:".data →
      (handleMaintenanceSyncIP env f).1 = ReturnCode.IncorrectCommandLineParameters) ∧
    (goRegexFindDashColon msg.data = none →
      (handleMaintenanceSyncIP env f).1 = ReturnCode.IncorrectCommandLineParameters) := by
  have hrc : (handleMaintenanceSyncIP env f).1 = classifySyncIPParseError msg := by
    unfold handleMaintenanceSyncIP
    rw [hfail]
  refine ⟨?_, ?_, ?_⟩
  · intro hmsg
    constructor
    · rw [hrc, hmsg]
      exact classify_invalidValueMsg fid v hnd
    · have hpres := parseSyncIP_fieldPreserved (f.commandLineArgs.drop 3) f.IpConfiguration
      rw [hfail] at hpres
      simp only [parseOutState] at hpres
      cases hpres fid with
      | inl h => exact Or.inl h
      | inr h =>
        right
        intro heq
        rw [heq, hbad] at h
        cases h
  · intro m hm h1 h2 h3 h4 h5
    rw [hrc]
    unfold classifySyncIPParseError
    rw [hm]
    simp only [h1, h2, h3, h4, h5, if_false]
  · intro hm
    rw [hrc]
    unfold classifySyncIPParseError
    rw [hm]

/-- C2 (amended) at a concrete input: the dash-free malformed netmask
value 300.1.1.1 yields exactly MissingOrIncorrectNetworkMask, and the
netmask field keeps its previous value. -/
theorem c2_parse_error_amended_witness :
    (handleMaintenanceSyncIP baseEnv
        (baseFlags ["rpc", "maintenance", "syncip", "-netmask", "300.1.1.1"])).1 =
      ReturnCode.MissingOrIncorrectNetworkMask ∧
    (ipField IPField.netmask emptyIPConfig =
        ipField IPField.netmask (baseFlags ["rpc", "maintenance", "syncip", "-netmask", "300.1.1.1"]).IpConfiguration ∨
      ipField IPField.netmask emptyIPConfig ≠ "300.1.1.1") := by
  have h := c2_parse_error_amended IPField.netmask "300.1.1.1" (by decide) (by decide)
    baseEnv (baseFlags ["rpc", "maintenance", "syncip", "-netmask", "300.1.1.1"])
    emptyIPConfig (invalidValueMsg "netmask" "300.1.1.1") (by decide)
  exact ⟨(h.1 rfl).1, (h.1 rfl).2⟩

/-- C5: the claim says every non-empty field of the configuration
parses as a valid IPv4 address.  The value given by two colons and a
one is accepted by net.ParseIP (it is the IPv6 loopback), so parsing
gateway with that value succeeds and stores it, a non-empty value that
is not an IPv4 address; the invariant holds only for IP addresses in
general, not for IPv4. -/
theorem c5_ipv4_invariant_counterexample :
    parseSyncIPArgs ((baseFlags ["rpc", "maintenance", "syncip", "-gateway", "::1"]).commandLineArgs.drop 3)
        emptyIPConfig =
      ParseOut.ok { emptyIPConfig with Gateway := "::1" } ∧
    (handleMaintenanceSyncIP baseEnv (baseFlags ["rpc", "maintenance", "syncip", "-gateway", "::1"])).2.1.IpConfiguration.Gateway =
      "::1" ∧
    ¬ ("::1" : String) = "" ∧
    isIPv4String "::1" = false := by
  refine ⟨by decide, by decide, by decide, by decide⟩

/-- C5 (amended): after the syncip handler, every non-empty field of
the configuration parses as a valid IP address (IPv4 or IPv6): flag
values are validated by net.ParseIP at assignment time, and the fields
derived from a well-formed OS interface (IPv4 bytes and four-byte
masks) are dotted quads. -/
theorem c5_ipv4_invariant_amended (env : Env) (f : Flags)
    (hwf : envAddrsWF env)
    (hinit : ∀ fid, ipField fid f.IpConfiguration = "" ∨
      validIPString (ipField fid f.IpConfiguration)) :
    ∀ fid, ipField fid (handleMaintenanceSyncIP env f).2.1.IpConfiguration = "" ∨
      validIPString (ipField fid (handleMaintenanceSyncIP env f).2.1.IpConfiguration) := by
  intro fid
  have hchain : ∀ cfg1 : IPConfiguration, fieldPreserved f.IpConfiguration cfg1 →
      ipField fid cfg1 = "" ∨ validIPString (ipField fid cfg1) := by
    intro cfg1 hp
    cases hp fid with
    | inl h => rw [h]; exact hinit fid
    | inr h => exact Or.inr h
  have hpres := parseSyncIP_fieldPreserved (f.commandLineArgs.drop 3) f.IpConfiguration
  unfold handleMaintenanceSyncIP
  cases hparse : parseSyncIPArgs (f.commandLineArgs.drop 3) f.IpConfiguration with
  | fail msg cfg1 =>
    rw [hparse] at hpres
    exact hchain cfg1 hpres
  | ok cfg1 =>
    rw [hparse] at hpres
    dsimp only
    by_cases hstatic : cfg1.IpAddress ≠ ""
    · rw [if_pos hstatic]
      exact hchain cfg1 hpres
    · rw [if_neg hstatic]
      have hempty : cfg1.IpAddress = "" := by
        by_contra hc
        exact hstatic hc
      cases heng : env.lanSettings with
      | error e => exact hchain cfg1 hpres
      | ok amtIfc =>
        cases hifs : env.interfaces with
        | error e => exact hchain cfg1 hpres
        | ok ifaces =>
          dsimp only
          rw [scanIfaces_spec env amtIfc.MACAddress ifaces cfg1 hempty]
          cases hres : firstResolving env amtIfc.MACAddress ifaces with
          | none =>
            dsimp only
            rw [if_pos hempty]
            exact hchain cfg1 hpres
          | some t =>
            have hmem := firstResolving_mem env amtIfc.MACAddress ifaces t hres
            obtain ⟨l4, hl4⟩ := Option.isSome_iff_exists.mp hmem.2.1
            obtain ⟨hipb, hmlen, hmb⟩ := hwf t.1 t.2.1 t.2.2 hmem.1
            have hipvalid : validIPString (ipString t.2.1) := by
              apply ipString_valid t.2.1 l4 hl4
              intro x hx
              apply hipb
              unfold to4 at hl4
              split at hl4
              · cases hl4; exact hx
              · split at hl4
                · cases hl4; exact List.mem_of_mem_drop hx
                · cases hl4
            have hmto4 : to4 t.2.2 = some t.2.2 := by
              unfold to4
              rw [if_pos hmlen]
            have hmvalid : validIPString (ipString t.2.2) :=
              ipString_valid t.2.2 t.2.2 hmto4 hmb
            have hne : ipString t.2.1 ≠ "" := ipString_ne_empty _ _ hl4
            dsimp only
            rw [if_neg (by simpa using hne)]
            cases fid with
            | ipAddress => exact Or.inr hipvalid
            | netmask => exact Or.inr hmvalid
            | gateway => exact hchain cfg1 hpres
            | primaryDns => exact hchain cfg1 hpres
            | secondaryDns => exact hchain cfg1 hpres

/-- C5 (amended) at a concrete input: the derived netmask of the
resolved configuration is empty or a valid IP address. -/
theorem c5_ipv4_invariant_amended_witness :
    ipField IPField.netmask
        (handleMaintenanceSyncIP envOneAddr syncIPBareFlags).2.1.IpConfiguration = "" ∨
    validIPString (ipField IPField.netmask
        (handleMaintenanceSyncIP envOneAddr syncIPBareFlags).2.1.IpConfiguration) := by
  apply c5_ipv4_invariant_amended
  · intro i ip m hm
    have he : (envOneAddr.interfaceAddrs i).1 =
        [GoAddr.ipNet [192, 168, 1, 20] [255, 255, 255, 0]] := rfl
    rw [he] at hm
    simp only [List.mem_singleton, GoAddr.ipNet.injEq] at hm
    obtain ⟨h1, h2⟩ := hm
    subst h1
    subst h2
    refine ⟨by decide, by decide, by decide⟩
  · intro fid
    left
    cases fid <;> rfl

/-- C6: with no sub-command name present (only the two fixed leading
arguments) or with a name outside the fixed set, the dispatcher
returns IncorrectCommandLineParameters, prints the maintenance usage,
and invokes no sub-handler. -/
theorem c6_unknown_subcommand (env : Env) (f : Flags)
    (h : f.commandLineArgs.length = 2 ∨
      subCommandArg f ∉ knownSubCommands) :
    (handleMaintenanceCommand env f).1 = ReturnCode.IncorrectCommandLineParameters ∧
    (handleMaintenanceCommand env f).2.2.maintUsagePrinted = true ∧
    (handleMaintenanceCommand env f).2.2.handlerInvoked = none := by
  unfold handleMaintenanceCommand
  by_cases hlen : f.commandLineArgs.length = 2
  · rw [if_pos hlen]
    exact ⟨rfl, rfl, rfl⟩
  · rw [if_neg hlen]
    have hunk : subCommandArg f ∉ knownSubCommands := h.resolve_left hlen
    dsimp only
    rw [runSub_unknown env _ (by simpa using hunk)]
    dsimp only
    rw [if_pos (by decide : (ReturnCode.IncorrectCommandLineParameters : ReturnCode) ≠
      ReturnCode.Success)]
    exact ⟨rfl, rfl, rfl⟩

/-- C6 at a concrete input: the unknown sub-command name bogus fails
with usage printed and no handler invoked. -/
theorem c6_unknown_subcommand_witness :
    (handleMaintenanceCommand baseEnv (baseFlags ["rpc", "maintenance", "bogus"])).1 =
      ReturnCode.IncorrectCommandLineParameters ∧
    (handleMaintenanceCommand baseEnv (baseFlags ["rpc", "maintenance", "bogus"])).2.2.maintUsagePrinted = true ∧
    (handleMaintenanceCommand baseEnv (baseFlags ["rpc", "maintenance", "bogus"])).2.2.handlerInvoked = none :=
  c6_unknown_subcommand baseEnv (baseFlags ["rpc", "maintenance", "bogus"])
    (Or.inr (by decide))

/-- C7: when the selected sub-handler reports a non-success code, the
dispatcher returns that code unchanged, never attempts the credential
prompt, and never evaluates the URL check. -/
theorem c7_subhandler_short_circuit (env : Env) (f : Flags)
    (hsub : subCommandArg f ∈ knownSubCommands)
    (hfail : (runMaintenanceSubcommand env
      { f with SubCommand := subCommandArg f }).1 ≠ ReturnCode.Success) :
    (handleMaintenanceCommand env f).1 =
      (runMaintenanceSubcommand env { f with SubCommand := subCommandArg f }).1 ∧
    (handleMaintenanceCommand env f).2.2.promptAttempted = false ∧
    (handleMaintenanceCommand env f).2.2.urlChecked = false := by
  have hlen : ¬ f.commandLineArgs.length = 2 := by
    intro hl
    have hd : subCommandArg f = "" := by
      unfold subCommandArg
      apply List.getD_eq_default
      omega
    rw [hd] at hsub
    exact absurd hsub (by decide)
  have hd := dispatch_subfail env f hlen hfail
  rw [hd]
  exact ⟨rfl, (runSub_trace_fields env _).1, (runSub_trace_fields env _).2⟩

/-- C7 at a concrete input: a syncclock parse failure propagates as
IncorrectCommandLineParameters with no prompt. -/
theorem c7_subhandler_short_circuit_witness :
    (handleMaintenanceCommand baseEnv (baseFlags ["rpc", "maintenance", "syncclock", "-zzz"])).1 =
      ReturnCode.IncorrectCommandLineParameters ∧
    (handleMaintenanceCommand baseEnv (baseFlags ["rpc", "maintenance", "syncclock", "-zzz"])).2.2.promptAttempted = false := by
  have h := c7_subhandler_short_circuit baseEnv
    (baseFlags ["rpc", "maintenance", "syncclock", "-zzz"]) (by decide) (by decide)
  exact ⟨h.1.trans (by decide), h.2.1⟩

/-- C8: in a synchostname invocation whose flag parse succeeds, an OS
hostname error or an empty OS hostname makes the dispatcher fail with
OSNetworkInterfacesLookupFailed before any credential prompt, while a
failure of the OS DNS-suffix read leaves the return code unchanged. -/
theorem c8_synchostname_errors (env : Env) (f : Flags)
    (hsub : subCommandArg f = "synchostname")
    (hparse : parseNoFlags (f.commandLineArgs.drop 3) = ParseOut.ok ()) :
    ((env.osHostname.2.isSome = true ∨ env.osHostname.1 = "") →
      (handleMaintenanceCommand env f).1 = ReturnCode.OSNetworkInterfacesLookupFailed ∧
      (handleMaintenanceCommand env f).2.2.promptAttempted = false) ∧
    (∀ d : String,
      (handleMaintenanceSyncHostname { env with osDNSSuffix := (d, some ()) } f).1 =
      (handleMaintenanceSyncHostname { env with osDNSSuffix := (d, none) } f).1) := by
  constructor
  · intro hbad
    have hrc : (handleMaintenanceSyncHostname env
        { f with SubCommand := subCommandArg f }).1 =
        ReturnCode.OSNetworkInterfacesLookupFailed := by
      unfold handleMaintenanceSyncHostname
      rw [hparse]
      dsimp only
      rcases hbad with hb | hb
      · rw [if_pos hb]
      · by_cases hs : env.osHostname.2.isSome = true
        · rw [if_pos hs]
        · rw [if_neg hs, if_pos hb]
    have hsub2 : ({ f with SubCommand := subCommandArg f } : Flags).SubCommand =
        "synchostname" := by simpa using hsub
    have hrun := runSub_synchostname env
      { f with SubCommand := subCommandArg f } hsub2
    have hfail : (runMaintenanceSubcommand env
        { f with SubCommand := subCommandArg f }).1 ≠ ReturnCode.Success := by
      rw [hrun]
      unfold withInvoked
      dsimp only
      rw [hrc]
      decide
    have hlen : ¬ f.commandLineArgs.length = 2 := by
      intro hl
      have hd : subCommandArg f = "" := by
        unfold subCommandArg
        apply List.getD_eq_default
        omega
      rw [hd] at hsub
      exact absurd hsub (by decide)
    have hd := dispatch_subfail env f hlen hfail
    rw [hd, hrun]
    unfold withInvoked
    dsimp only
    rw [hrc]
    refine ⟨rfl, ?_⟩
    have := runSub_trace_fields env { f with SubCommand := subCommandArg f }
    rw [hrun] at this
    exact this.1
  · intro d
    unfold handleMaintenanceSyncHostname
    rw [hparse]

/-- C8 at a concrete input: an erroring OS hostname accessor fails the
synchostname dispatch with no prompt, and a DNS-suffix error does not
change the handler code. -/
theorem c8_synchostname_errors_witness :
    (handleMaintenanceCommand { baseEnv with osHostname := ("", some ()) }
        (baseFlags ["rpc", "maintenance", "synchostname"])).1 =
      ReturnCode.OSNetworkInterfacesLookupFailed ∧
    (handleMaintenanceCommand { baseEnv with osHostname := ("", some ()) }
        (baseFlags ["rpc", "maintenance", "synchostname"])).2.2.promptAttempted = false ∧
    (handleMaintenanceSyncHostname
        { baseEnv with osHostname := ("", some ()), osDNSSuffix := ("corp", some ()) }
        (baseFlags ["rpc", "maintenance", "synchostname"])).1 =
      (handleMaintenanceSyncHostname
        { baseEnv with osHostname := ("", some ()), osDNSSuffix := ("corp", none) }
        (baseFlags ["rpc", "maintenance", "synchostname"])).1 := by
  have h := c8_synchostname_errors { baseEnv with osHostname := ("", some ()) }
    (baseFlags ["rpc", "maintenance", "synchostname"]) (by decide) (by decide)
  exact ⟨(h.1 (Or.inl rfl)).1, (h.1 (Or.inl rfl)).2, h.2 "corp"⟩

/-- C9: an error from InterfaceAddrs is silently discarded.  The code
stores the error into the blank identifier and re-tests the stale nil
error of the earlier Interfaces call, so the handler result is
unchanged when the recorded error of an erroring, empty-result call is
erased; a MAC-matching interface whose call returned no addresses
contributes nothing and scanning continues with the next interface;
and when nothing resolves the handler returns
OSNetworkInterfacesLookupFailed, there being no dedicated code for an
InterfaceAddrs failure. -/
theorem c9_interface_addrs_error_discarded (env : Env) (f : Flags) (cfg1 : IPConfiguration)
    (amtIfc : InterfaceSettings) (ifaces : List NetInterface) (i : NetInterface)
    (hparse : parseSyncIPArgs (f.commandLineArgs.drop 3) f.IpConfiguration = ParseOut.ok cfg1)
    (hnostatic : cfg1.IpAddress = "")
    (heng : env.lanSettings = Except.ok amtIfc)
    (hifs : env.interfaces = Except.ok ifaces)
    (herr : env.interfaceAddrs i = ([], some ())) :
    handleMaintenanceSyncIP env f =
      handleMaintenanceSyncIP
        { env with interfaceAddrs := fun j => if j = i then ([], none) else env.interfaceAddrs j }
        f ∧
    (∀ (rest : List NetInterface) (cfg : IPConfiguration), cfg.IpAddress = "" →
      i.hardwareAddr = amtIfc.MACAddress →
      (scanIfaces env amtIfc.MACAddress none (i :: rest) cfg).1 =
        (scanIfaces env amtIfc.MACAddress none rest cfg).1) ∧
    ((scanIfaces env amtIfc.MACAddress none ifaces cfg1).1.IpAddress = "" →
      (handleMaintenanceSyncIP env f).1 = ReturnCode.OSNetworkInterfacesLookupFailed) := by
  have hcongr : ∀ j, (env.interfaceAddrs j).1 =
      (({ env with interfaceAddrs :=
        fun j => if j = i then ([], none) else env.interfaceAddrs j } : Env).interfaceAddrs j).1 := by
    intro j
    by_cases hj : j = i
    · subst hj
      rw [herr]
      simp
    · simp [hj]
  refine ⟨?_, ?_, ?_⟩
  · set env2 : Env :=
      { env with interfaceAddrs := fun j => if j = i then ([], none) else env.interfaceAddrs j }
      with henv2
    have h2lan : env2.lanSettings = Except.ok amtIfc := heng
    have h2ifs : env2.interfaces = Except.ok ifaces := hifs
    have haddr : ∀ j, (env.interfaceAddrs j).1 = (env2.interfaceAddrs j).1 := by
      intro j
      rw [henv2]
      by_cases hj : j = i
      · subst hj
        rw [herr]
        simp
      · simp [hj]
    have hscan := scanIfaces_congr env env2 amtIfc.MACAddress none haddr
    unfold handleMaintenanceSyncIP
    rw [hparse]
    dsimp only
    rw [if_neg (by simp [hnostatic]), if_neg (by simp [hnostatic])]
    rw [heng, hifs]
    dsimp only
    rw [hscan ifaces cfg1]
  · intro rest cfg hcfg hmac
    rw [scanIfaces]
    rw [if_neg (by simp [hcfg]), if_neg (by simp [hmac])]
    rw [herr]
    dsimp only
    rw [List.foldl_nil]
    simp
  · intro hempty
    unfold handleMaintenanceSyncIP
    rw [hparse]
    dsimp only
    rw [if_neg (by simp [hnostatic]), heng, hifs]
    dsimp only
    rw [if_pos hempty]

/-- Environment of the C9 instance: the single MAC-matching interface
reports an InterfaceAddrs error with no addresses. -/
def envAddrErr : Env :=
  { lanSettings := Except.ok { MACAddress := "AA:BB:CC:DD:EE:FF" }
    interfaces := Except.ok [ifcAA]
    interfaceAddrs := fun _ => ([], some ())
    osDNSSuffix := ("", none)
    osHostname := ("host1", none)
    readPassword := none }

/-- C9 at a concrete input: with the only matching interface failing
its address query, the result equals the result with the error erased,
and the handler returns OSNetworkInterfacesLookupFailed. -/
theorem c9_interface_addrs_error_discarded_witness :
    handleMaintenanceSyncIP envAddrErr syncIPBareFlags =
      handleMaintenanceSyncIP
        { envAddrErr with interfaceAddrs :=
          fun j => if j = ifcAA then ([], none) else envAddrErr.interfaceAddrs j }
        syncIPBareFlags ∧
    (handleMaintenanceSyncIP envAddrErr syncIPBareFlags).1 =
      ReturnCode.OSNetworkInterfacesLookupFailed := by
  have h := c9_interface_addrs_error_discarded envAddrErr syncIPBareFlags emptyIPConfig
    { MACAddress := "AA:BB:CC:DD:EE:FF" } [ifcAA] ifcAA (by decide) rfl rfl rfl rfl
  exact ⟨h.1, h.2.2 (by decide)⟩

/-- C10: after a successful sub-handler with a credential available
(already supplied, or obtained by the modelled prompt), the resolved
credential is copied into the local-configuration record before the
remote-endpoint check; a non-local invocation with an empty URL then
returns MissingOrIncorrectURL with the local-configuration password
already holding the resolved credential. -/
theorem c10_localconfig_mutated_on_url_error (env : Env) (f : Flags)
    (hlen : ¬ f.commandLineArgs.length = 2)
    (hok : (runMaintenanceSubcommand env
      { f with SubCommand := subCommandArg f }).1 = ReturnCode.Success)
    (hlocal : f.Local = false) (hurl : f.URL = "")
    (hcred : f.Password = "" → env.readPassword.isSome = true) :
    (handleMaintenanceCommand env f).1 = ReturnCode.MissingOrIncorrectURL ∧
    (handleMaintenanceCommand env f).2.1.LocalConfigPassword =
      (if f.Password = "" then env.readPassword.getD "" else f.Password) ∧
    (handleMaintenanceCommand env f).2.2.urlChecked = true := by
  have hpres := runSub_preserves env { f with SubCommand := subCommandArg f }
  unfold handleMaintenanceCommand
  rw [if_neg hlen]
  dsimp only
  set r := runMaintenanceSubcommand env { f with SubCommand := subCommandArg f } with hr
  have hok2 : r.1 = ReturnCode.Success := by rw [hr]; exact hok
  have hpres2 : r.2.1.Password = f.Password ∧ r.2.1.URL = f.URL ∧ r.2.1.Local = f.Local := by
    rw [hr]
    exact ⟨hpres.1, hpres.2.1, hpres.2.2.1⟩
  rw [if_neg (by simp [hok2])]
  by_cases hp : f.Password = ""
  · obtain ⟨p, hp2⟩ := Option.isSome_iff_exists.mp (hcred hp)
    simp [hpres2.1, hpres2.2.1, hpres2.2.2, hp, hp2, hlocal, hurl]
  · simp [hpres2.1, hpres2.2.1, hpres2.2.2, hp, hlocal, hurl]

/-- C10 at a concrete input: a successful syncclock with an empty
session password, a prompt yielding a credential, local mode off and
an empty URL returns MissingOrIncorrectURL with the local
configuration already holding the prompted credential. -/
theorem c10_localconfig_mutated_on_url_error_witness :
    (handleMaintenanceCommand { baseEnv with readPassword := some "secret" }
        (baseFlags ["rpc", "maintenance", "syncclock"])).1 = ReturnCode.MissingOrIncorrectURL ∧
    (handleMaintenanceCommand { baseEnv with readPassword := some "secret" }
        (baseFlags ["rpc", "maintenance", "syncclock"])).2.1.LocalConfigPassword = "secret" ∧
    (handleMaintenanceCommand { baseEnv with readPassword := some "secret" }
        (baseFlags ["rpc", "maintenance", "syncclock"])).2.2.urlChecked = true := by
  have h := c10_localconfig_mutated_on_url_error
    { baseEnv with readPassword := some "secret" }
    (baseFlags ["rpc", "maintenance", "syncclock"]) (by decide) (by decide) rfl rfl
    (fun _ => rfl)
  exact ⟨h.1, h.2.1.trans (by decide), h.2.2⟩

end ParseLemmas

end RpcGo
